import Mathlib

/-!
Verification development for the simpletool-server repository (an MCP
tool-server supervisor and gateway).  Python source files are shallowly
embedded as Lean definitions: dictionaries become association lists,
asyncio subprocess and file-system effects become explicit state passing,
and external collaborators (the OS spawn call, the Python uuid library,
the child process replies) become explicit parameters or oracles of the
embedded functions.  All definitions are executable.
-/

namespace SimpletoolServer

/-! ## Association-list dictionaries

Python `dict` values keyed by strings are embedded as association lists.
`alGet` is `d.get(k)` (first binding wins), `alErase` is `del d[k]`,
`alInsert` is `d[k] = v`. -/

def alGet {α : Type} : List (String × α) → String → Option α
  | [], _ => none
  | (k, v) :: rest, key => if k = key then some v else alGet rest key

def alHasKey {α : Type} (l : List (String × α)) (key : String) : Bool :=
  (alGet l key).isSome

def alErase {α : Type} : List (String × α) → String → List (String × α)
  | [], _ => []
  | (k, v) :: rest, key =>
    if k = key then alErase rest key else (k, v) :: alErase rest key

def alInsert {α : Type} (l : List (String × α)) (key : String) (v : α) :
    List (String × α) :=
  (key, v) :: alErase l key

def optOr {α : Type} : Option α → Option α → Option α
  | some a, _ => some a
  | none, b => b

/-- Python `base.update(upd)`: every key of `upd` overwrites the
corresponding key of `base`; other keys of `base` survive. -/
def dictUpdate (base upd : List (String × String)) : List (String × String) :=
  base.filter (fun p => (alGet upd p.1).isNone) ++ upd

theorem alGet_append {α : Type} (l₁ l₂ : List (String × α)) (k : String) :
    alGet (l₁ ++ l₂) k = optOr (alGet l₁ k) (alGet l₂ k) := by
  induction l₁ with
  | nil => simp [alGet, optOr]
  | cons hd tl ih =>
    obtain ⟨k', v⟩ := hd
    by_cases h : k' = k <;> simp [alGet, h, ih, optOr]

theorem alGet_filter_isNone {α : Type} (l : List (String × α))
    (u : List (String × String)) (k : String) :
    alGet (l.filter (fun p => (alGet u p.1).isNone)) k =
      if (alGet u k).isSome then none else alGet l k := by
  induction l with
  | nil => cases h : alGet u k <;> simp [alGet, h]
  | cons hd tl ih =>
    obtain ⟨k', v⟩ := hd
    by_cases h : k' = k
    · subst h
      cases hget : alGet u k' <;>
        simp [List.filter_cons, alGet, hget, ih]
    · cases hget : alGet u k' <;>
        simp [List.filter_cons, alGet, hget, ih, h]

/-- Mapping semantics of `dict.update`: lookups prefer the overriding
dictionary and fall back to the base. -/
theorem alGet_dictUpdate (base upd : List (String × String)) (k : String) :
    alGet (dictUpdate base upd) k = optOr (alGet upd k) (alGet base k) := by
  unfold dictUpdate
  rw [alGet_append, alGet_filter_isNone]
  cases h : alGet upd k <;> cases h₂ : alGet base k <;> simp [optOr, h, h₂]

/-! ## Tool filtering during discovery (C1)

Embedding of the filtering loop of
`McpServerLifecycleService.fetch_server_metadata`
(src/mcpo_simple_server/services/mcpserver/lifecycle.py, lines 438-469)
together with `ToolsConfigService.is_tool_blacklisted` and
`get_whitelist` (services/config/json_files/tools.py).  A raw tool is a
JSON object; only its `name` field is inspected by the filter, the rest
is carried opaquely as `payload`. -/

/-- Python `s.startswith(p)` on strings, embedded via the underlying
character lists so that concrete instances reduce in the kernel. -/
def pyStartsWith (s p : String) : Bool :=
  p.data.isPrefixOf s.data

/-- Python slicing `s[n:]` on strings (drop the first `n` characters). -/
def pyDrop (s : String) (n : Nat) : String :=
  ⟨s.data.drop n⟩

structure RawTool where
  name : String
  payload : Nat
  deriving DecidableEq, Repr

/-- Direct translation of the per-tool body of the filtering loop:
`tool.get("name", "")` empty means skip; then the environment whitelist,
the environment blacklist, the config blacklist
(`is_tool_blacklisted`), and the config whitelist are consulted, each
`continue` dropping the tool. -/
def toolPassesFilter (envWl envBl cfgWl cfgBl : List String) (t : RawTool) : Bool :=
  if t.name = "" then false
  else if !envWl.isEmpty && !(envWl.contains t.name) then false
  else if !envBl.isEmpty && envBl.contains t.name then false
  else if cfgBl.contains t.name then false
  else if !cfgWl.isEmpty && !(cfgWl.contains t.name) then false
  else true

/-- The `filtered_tools` list built by the loop: the raw `tools_data`
restricted, in order, to the tools that pass every check. -/
def applyDiscoveryFilter (envWl envBl cfgWl cfgBl : List String)
    (tools : List RawTool) : List RawTool :=
  tools.filter (toolPassesFilter envWl envBl cfgWl cfgBl)

/-- Pass condition exactly as claim C1 words it: (environment whitelist
empty or contains the name) and name not in environment blacklist, and
(configuration whitelist empty or contains the name) and name not in
configuration blacklist.  No non-empty-name requirement appears in the
claim. -/
def claimC1Passes (envWl envBl cfgWl cfgBl : List String) (name : String) : Bool :=
  (envWl.isEmpty || envWl.contains name) && !(envBl.contains name) &&
    (cfgWl.isEmpty || cfgWl.contains name) && !(cfgBl.contains name)

theorem toolPassesFilter_eq (envWl envBl cfgWl cfgBl : List String) (t : RawTool) :
    toolPassesFilter envWl envBl cfgWl cfgBl t =
      (!(t.name = "") && claimC1Passes envWl envBl cfgWl cfgBl t.name) := by
  unfold toolPassesFilter claimC1Passes
  by_cases hn : t.name = "" <;>
    cases hwe : envWl.isEmpty <;>
    cases hwc : envWl.contains t.name <;>
    cases hbe : envBl.isEmpty <;>
    cases hbc : envBl.contains t.name <;>
    cases hcb : cfgBl.contains t.name <;>
    cases hce : cfgWl.isEmpty <;>
    cases hcc : cfgWl.contains t.name <;>
    simp_all

/-- C1 (counterexample): a raw tool whose `name` is empty satisfies the
filter condition stated by the claim whenever every list is empty, yet
`fetch_server_metadata` drops it (`if not tool_name: continue`), so the
stored list differs from the raw list restricted to the claimed
condition. -/
theorem c1_counterexample :
    applyDiscoveryFilter [] [] [] [] [⟨"", 0⟩] ≠
      ([⟨"", 0⟩] : List RawTool).filter
        (fun t => claimC1Passes [] [] [] [] t.name) := by
  decide

/-- C1 (amended): a raw tool passes if and only if its name is
non-empty, (the environment whitelist is empty or contains the name),
the name is not in the environment blacklist, (the configuration
whitelist is empty or contains the name) and the name is not in the
configuration blacklist; the stored tool list equals the raw discovered
list restricted, in order, to the passing tools. -/
theorem c1_filter_amended (envWl envBl cfgWl cfgBl : List String)
    (tools : List RawTool) :
    applyDiscoveryFilter envWl envBl cfgWl cfgBl tools =
      tools.filter
        (fun t => !(t.name = "") && claimC1Passes envWl envBl cfgWl cfgBl t.name) := by
  unfold applyDiscoveryFilter
  exact List.filter_congr (fun t _ => toolPassesFilter_eq envWl envBl cfgWl cfgBl t)

/-! ## Command rewrite at spawn (C6)

Embedding of the command-rewrite block of
`McpServerLifecycleService.start_mcpserver`
(src/mcpo_simple_server/services/mcpserver/lifecycle.py, lines 230-252).
Returns the `(final_command, final_args)` pair handed to
`create_subprocess_exec`. -/

def rewriteCommand (command : String) (args : List String) : String × List String :=
  if command = "uvx" then
    ("uv",
      match args with
      | [] => []
      | moduleName :: restArgs => "tool" :: "run" :: moduleName :: restArgs)
  else if pyStartsWith command "uvx " then
    ("uv run " ++ pyDrop command 4, [])
  else (command, args)

/-- C6: if the command equals uvx and args is non-empty, the child runs
as command uv with arguments tool, run, args[0], then the remaining
args; if the command has the prefix (uvx followed by a space), the child
runs with the command (uv run ) concatenated with the remainder and no
arguments; any other command and args pass through unchanged. -/
theorem c6_command_rewrite (command : String) (args : List String) :
    (command = "uvx" → args ≠ [] →
      rewriteCommand command args = ("uv", "tool" :: "run" :: args)) ∧
    (pyStartsWith command "uvx " = true →
      rewriteCommand command args = ("uv run " ++ pyDrop command 4, [])) ∧
    (command ≠ "uvx" → pyStartsWith command "uvx " = false →
      rewriteCommand command args = (command, args)) := by
  refine ⟨?_, ?_, ?_⟩
  · intro hc ha
    subst hc
    cases args with
    | nil => exact absurd rfl ha
    | cons a rest => simp [rewriteCommand]
  · intro hp
    have hne : command ≠ "uvx" := by
      intro hc
      subst hc
      exact absurd hp (by decide)
    simp [rewriteCommand, hne, hp]
  · intro hne hnp
    simp [rewriteCommand, hne, hnp]

/-- Witness for C6 at concrete inputs: a uvx command with two arguments,
a uvx-prefixed command string, and an untouched plain command. -/
theorem c6_witness :
    rewriteCommand "uvx" ["mcp-server-time", "--local-timezone=Europe/Warsaw"] =
      ("uv", ["tool", "run", "mcp-server-time", "--local-timezone=Europe/Warsaw"]) ∧
    rewriteCommand "uvx mcp-server-time" [] = ("uv run mcp-server-time", []) ∧
    rewriteCommand "python" ["-m", "server"] = ("python", ["-m", "server"]) := by
  refine ⟨?_, ?_, ?_⟩
  · exact (c6_command_rewrite "uvx" ["mcp-server-time", "--local-timezone=Europe/Warsaw"]).1
      rfl (by decide)
  · have h := (c6_command_rewrite "uvx mcp-server-time" []).2.1 (by decide)
    rw [h]
    decide
  · exact (c6_command_rewrite "python" ["-m", "server"]).2.2 (by decide) (by decide)

/-! ## Paginated tools/list discovery (C5)

Embedding of the request/response loop of
`McpServerLifecycleService.fetch_server_metadata`
(src/mcpo_simple_server/services/mcpserver/lifecycle.py, lines 368-436).
The child process is an external collaborator: its replies are given as
a list of already-parsed JSON-RPC lines (`PageResp`), the head being the
reply to the initial `tools/list` request; an exhausted list plays the
role of EOF on the pipe (`readline` returning an empty line).  The
embedding records every `tools/list` request written to the child
(`RpcRequest`, carrying the `id` and the optional `params.cursor`). -/

structure PageResult where
  tools : List RawTool
  nextCursor : Option String
  deriving DecidableEq, Repr

structure PageResp where
  hasJsonrpc : Bool
  id : Option Int
  result : Option PageResult
  deriving DecidableEq, Repr

/-- Python `response.get("result", \x7b\x7d).get("tools", [])`. -/
def respTools (r : PageResp) : List RawTool :=
  match r.result with
  | some res => res.tools
  | none => []

/-- Python `response.get("result", \x7b\x7d).get("nextCursor")`. -/
def respCursor (r : PageResp) : Option String :=
  r.result.bind PageResult.nextCursor

/-- Python truthiness of `next_cursor` in `while next_cursor:`. -/
def cursorTruthy : Option String → Bool
  | none => false
  | some s => !(s == "")

structure RpcRequest where
  id : Int
  cursor : Option String
  deriving DecidableEq, Repr

/-- The pagination `while` loop: while the cursor is truthy, write a
request carrying `id` 1 and `params.cursor`, read one line (EOF breaks
the loop), extend the tool list and move to the reply's `nextCursor`.
No field of the reply other than `result` is inspected. -/
def fetchLoop (cursor : Option String) : List PageResp → List RpcRequest × List RawTool
  | [] => if cursorTruthy cursor then ([⟨1, cursor⟩], []) else ([], [])
  | r :: rs =>
    if cursorTruthy cursor then
      let tail := fetchLoop (respCursor r) rs
      (⟨1, cursor⟩ :: tail.1, respTools r ++ tail.2)
    else ([], [])

structure FetchOut where
  requests : List RpcRequest
  rawTools : List RawTool
  storedTools : List RawTool
  deriving DecidableEq, Repr

inductive FetchResult where
  | ok (out : FetchOut)
  | error (message : String)
  deriving DecidableEq, Repr

/-- Embedding of `fetch_server_metadata` from the first `tools/list`
request onwards: the initial request carries `id` 1 and no cursor; an
absent first line is the empty-response error; the first reply must
contain `jsonrpc` and `result`; then the pagination loop runs and the
collected raw tools pass through the whitelist/blacklist filter before
being stored on the server entry. -/
def fetchServerMetadata (envWl envBl cfgWl cfgBl : List String)
    (firstLine : Option PageResp) (rest : List PageResp) : FetchResult :=
  match firstLine with
  | none => .error "Empty response from server"
  | some first =>
    if !first.hasJsonrpc || first.result.isNone then
      .error "Invalid JSON-RPC response"
    else
      let tail := fetchLoop (respCursor first) rest
      let raw := respTools first ++ tail.2
      .ok ⟨⟨1, none⟩ :: tail.1, raw, applyDiscoveryFilter envWl envBl cfgWl cfgBl raw⟩

/-- Cursor sequence the spec describes: while the previous reply's
`nextCursor` is non-empty, the next request passes it as
`params.cursor`. -/
def specCursorChain (cursor : Option String) : List PageResp → List (Option String)
  | [] => if cursorTruthy cursor then [cursor] else []
  | r :: rs =>
    if cursorTruthy cursor then cursor :: specCursorChain (respCursor r) rs
    else []

def pageWithId (r : PageResp) (i : Option Int) : PageResp :=
  { r with id := i }

theorem fetchLoop_ids (rest : List PageResp) (cursor : Option String) :
    ∀ req ∈ (fetchLoop cursor rest).1, req.id = 1 := by
  induction rest generalizing cursor with
  | nil =>
    intro req hreq
    by_cases h : cursorTruthy cursor <;> simp [fetchLoop, h] at hreq
    subst hreq
    rfl
  | cons r rs ih =>
    intro req hreq
    by_cases h : cursorTruthy cursor <;> simp [fetchLoop, h] at hreq
    rcases hreq with hreq | hreq
    · subst hreq; rfl
    · exact ih (respCursor r) req hreq

theorem fetchLoop_cursors (rest : List PageResp) (cursor : Option String) :
    (fetchLoop cursor rest).1.map RpcRequest.cursor = specCursorChain cursor rest := by
  induction rest generalizing cursor with
  | nil => by_cases h : cursorTruthy cursor <;> simp [fetchLoop, specCursorChain, h]
  | cons r rs ih =>
    by_cases h : cursorTruthy cursor <;> simp [fetchLoop, specCursorChain, h, ih]

theorem fetchLoop_id_blind (rest : List PageResp) (cursor : Option String)
    (f : Option Int → Option Int) :
    fetchLoop cursor (rest.map (fun r => pageWithId r (f r.id))) =
      fetchLoop cursor rest := by
  induction rest generalizing cursor with
  | nil => rfl
  | cons r rs ih =>
    simp only [List.map_cons, fetchLoop]
    by_cases h : cursorTruthy cursor
    · simp only [h, if_true]
      rw [show respCursor (pageWithId r (f r.id)) = respCursor r from rfl,
        show respTools (pageWithId r (f r.id)) = respTools r from rfl, ih]
    · simp [h]

/-- C5 (counterexample): a two-page discovery run.  The second page
request written to the child carries id 1, not 2, and the second reply
is accepted although its id is 42: its tool is stored.  This refutes
both the monotonic-id part and the id-matching part of the claim. -/
theorem c5_counterexample :
    fetchServerMetadata [] [] [] []
        (some ⟨true, some 1, some ⟨[⟨"alpha", 1⟩], some "p2"⟩⟩)
        [⟨true, some 42, some ⟨[⟨"beta", 2⟩], none⟩⟩] =
      .ok ⟨[⟨1, none⟩, ⟨1, some "p2"⟩],
        [⟨"alpha", 1⟩, ⟨"beta", 2⟩], [⟨"alpha", 1⟩, ⟨"beta", 2⟩]⟩ ∧
    ([⟨1, none⟩, ⟨1, some "p2"⟩] : List RpcRequest).map RpcRequest.id ≠ [1, 2] := by
  constructor
  · decide
  · decide

/-- C5 (amended): every tools/list request written during discovery
carries integer id 1 (the response id is never compared against it: the
whole run is unchanged under arbitrary rewriting of the response ids),
and pages are fetched while `result.nextCursor` is non-empty, the next
request passing it as `params.cursor`. -/
theorem c5_pagination_amended (envWl envBl cfgWl cfgBl : List String)
    (first : PageResp) (rest : List PageResp) (out : FetchOut)
    (h : fetchServerMetadata envWl envBl cfgWl cfgBl (some first) rest = .ok out) :
    (∀ req ∈ out.requests, req.id = 1) ∧
    out.requests.map RpcRequest.cursor = none :: specCursorChain (respCursor first) rest ∧
    (∀ f : Option Int → Option Int,
      fetchServerMetadata envWl envBl cfgWl cfgBl
        (some (pageWithId first (f first.id)))
        (rest.map (fun r => pageWithId r (f r.id))) = .ok out) := by
  cases hb : (!first.hasJsonrpc || first.result.isNone) with
  | true => simp [fetchServerMetadata, hb] at h
  | false =>
    simp only [fetchServerMetadata, hb, Bool.false_eq_true, if_false,
      FetchResult.ok.injEq] at h
    refine ⟨?_, ?_, ?_⟩
    · intro req hreq
      rw [← h] at hreq
      simp at hreq
      rcases hreq with hreq | hreq
      · subst hreq; rfl
      · exact fetchLoop_ids rest (respCursor first) req hreq
    · rw [← h]
      simp [fetchLoop_cursors]
    · intro f
      have hred : (!(pageWithId first (f first.id)).hasJsonrpc ||
          (pageWithId first (f first.id)).result.isNone)
          = (!first.hasJsonrpc || first.result.isNone) := rfl
      simp only [fetchServerMetadata, hred, hb, Bool.false_eq_true, if_false,
        FetchResult.ok.injEq]
      rw [fetchLoop_id_blind,
        show respCursor (pageWithId first (f first.id)) = respCursor first from rfl,
        show respTools (pageWithId first (f first.id)) = respTools first from rfl]
      exact h

/-- Witness for C5 (amended) on the concrete two-page run. -/
theorem c5_witness :
    (∀ req ∈ ([⟨1, none⟩, ⟨1, some "p2"⟩] : List RpcRequest), req.id = 1) ∧
    ([⟨1, none⟩, ⟨1, some "p2"⟩] : List RpcRequest).map RpcRequest.cursor =
      none :: specCursorChain
        (respCursor ⟨true, some 1, some ⟨[⟨"alpha", 1⟩], some "p2"⟩⟩)
        [⟨true, some 42, some ⟨[⟨"beta", 2⟩], none⟩⟩] := by
  have h := c5_pagination_amended [] [] [] []
    ⟨true, some 1, some ⟨[⟨"alpha", 1⟩], some "p2"⟩⟩
    [⟨true, some 42, some ⟨[⟨"beta", 2⟩], none⟩⟩]
    ⟨[⟨1, none⟩, ⟨1, some "p2"⟩], [⟨"alpha", 1⟩, ⟨"beta", 2⟩],
      [⟨"alpha", 1⟩, ⟨"beta", 2⟩]⟩
    (by decide)
  exact ⟨h.1, h.2.1⟩

/-! ## SSE transport and the /mcp/message endpoint (C2, C4)

Embedding of `SseTransport` state
(src/mcpo_simple_server/services/sse_transport/transport.py), of the
message handlers under src/server/routers/mcp_sse/messages_handlers/,
and of `message_endpoint`
(src/mcpo_simple_server/routers/mcp_sse/handlers.py, lines 94-174).
Per-session message queues are FIFO lists (append = `queue.put`).  The
Python uuid library consulted by `validate_session_id` is an external
collaborator and enters as the parameter `uuidValid`; the tool
invocation result and the registry tool list are likewise oracles.  The
fields of a client record that no embedded operation reads
(capabilities, clientInfo, connected_at) are not carried. -/

structure ClientData where
  initialized : Bool
  protocolVersion : String
  deriving DecidableEq, Repr

inductive RpcOut where
  | err (code : Int) (message : String) (id : Option Int)
  | initResult (id : Option Int) (protocolVersion serverName serverVersion : String)
  | emptyResult
  | serverReady
  | toolsListResult (id : Option Int) (tools : List RawTool)
  | toolsCallResult (id : Option Int) (content : List String) (isError : Bool)
  deriving DecidableEq, Repr

structure SseState where
  messageQueues : List (String × List RpcOut)
  clientInfo : List (String × ClientData)
  activeConnections : List (String × Bool)
  deriving DecidableEq, Repr

/-- Embedding of `SseTransport.send_message`: refuse when the session
has no queue or its connection is not recorded active, otherwise append
to the queue. -/
def sendMessage (st : SseState) (sid : String) (msg : RpcOut) : Bool × SseState :=
  match alGet st.messageQueues sid with
  | none => (false, st)
  | some q =>
    if (alGet st.activeConnections sid).getD false then
      (true, { st with messageQueues := alInsert st.messageQueues sid (q ++ [msg]) })
    else (false, st)

def appName : String := "MCPoSimpleServer"

structure RpcParams where
  name : Option String
  protocolVersion : Option String
  deriving DecidableEq, Repr

structure RpcMessage where
  jsonrpc : Option String
  method : Option String
  id : Option Int
  params : Option RpcParams
  deriving DecidableEq, Repr

/-- Outcome of `mcpserver_service.invoke_tool` as inspected by
`handle_tools_call`: a forwarded JSON-RPC error object, a manager
status-error dict, a reply with a nested result dict, or a reply
without one. -/
inductive InvokeOutcome where
  | rpcError (code : Int) (message : String)
  | statusError (message : String)
  | resultPayload (content : List String) (isError : Bool)
  | resultOpaque
  deriving DecidableEq, Repr

/-- Embedding of `check_client_initialized`
(src/server/routers/mcp_sse/messages_handlers/utils.py, lines 83-109):
true exactly when the session has a client record whose `initialized`
flag is set. -/
def checkClientInitialized (st : SseState) (sid : String) : Bool :=
  match alGet st.clientInfo sid with
  | none => false
  | some c => c.initialized

/-- Embedding of `handle_tools_call`
(src/mcpo_simple_server/routers/mcp_sse/messages_handlers/tools_call_handler.py).
The third component records whether `invoke_tool` was reached (a request
written to a child process). -/
def handleToolsCall (st : SseState) (sid : String) (msg : RpcMessage)
    (invokeOutcome : InvokeOutcome) : RpcOut × SseState × Bool :=
  if !(checkClientInitialized st sid) then
    let errResp := RpcOut.err (-32002) "Client not initialized" msg.id
    (errResp, (sendMessage st sid errResp).2, false)
  else
    let params := msg.params.getD ⟨none, none⟩
    if params.name.getD "" = "" then
      let errResp := RpcOut.err (-32602) "Invalid params: tool name not specified" msg.id
      (errResp, (sendMessage st sid errResp).2, false)
    else
      match invokeOutcome with
      | .rpcError c m =>
        let resp := RpcOut.err c m msg.id
        (resp, (sendMessage st sid resp).2, true)
      | .statusError m =>
        let resp := RpcOut.err (-32603) m msg.id
        (resp, (sendMessage st sid resp).2, true)
      | .resultPayload content isError =>
        let resp := RpcOut.toolsCallResult msg.id content isError
        (resp, (sendMessage st sid resp).2, true)
      | .resultOpaque =>
        let resp := RpcOut.toolsCallResult msg.id [] false
        (resp, (sendMessage st sid resp).2, true)

/-- Embedding of `handle_initialize`
(src/server/routers/mcp_sse/messages_handlers/initialize_handler.py):
record the client with `initialized = false` and answer with the fixed
protocol version and server info; no error path exists. -/
def handleInitialize (appVersion : String) (st : SseState) (sid : String)
    (msg : RpcMessage) : RpcOut × SseState :=
  let params := msg.params.getD ⟨none, none⟩
  let clientPv := params.protocolVersion.getD "2024-11-05"
  let st1 := { st with clientInfo := alInsert st.clientInfo sid ⟨false, clientPv⟩ }
  let resp := RpcOut.initResult msg.id "2024-11-05" appName appVersion
  (resp, (sendMessage st1 sid resp).2)

/-- Embedding of `handle_initialized`: set the `initialized` flag when
the client record exists and push a server/ready notification. -/
def handleInitialized (st : SseState) (sid : String) : RpcOut × SseState :=
  match alGet st.clientInfo sid with
  | some c =>
    let st1 := { st with clientInfo := alInsert st.clientInfo sid { c with initialized := true } }
    (RpcOut.emptyResult, (sendMessage st1 sid RpcOut.serverReady).2)
  | none => (RpcOut.emptyResult, st)

/-- Embedding of `handle_tools_list`: same initialization gate as
tools/call, then the registry tool list (oracle `toolsList`) is
returned and pushed on the queue. -/
def handleToolsList (st : SseState) (sid : String) (msg : RpcMessage)
    (toolsList : List RawTool) : RpcOut × SseState :=
  if !(checkClientInitialized st sid) then
    let errResp := RpcOut.err (-32002) "Client not initialized" msg.id
    (errResp, (sendMessage st sid errResp).2)
  else
    let resp := RpcOut.toolsListResult msg.id toolsList
    (resp, (sendMessage st sid resp).2)

/-- Embedding of `message_endpoint`
(src/mcpo_simple_server/routers/mcp_sse/handlers.py, lines 94-174):
session-id format validation through the uuid collaborator, JSON-RPC
envelope validation, then dispatch on the method.  The final component
records whether `invoke_tool` was reached. -/
def messageEndpoint (uuidValid : String → Bool) (appVersion : String)
    (st : SseState) (sessionId : String) (msg : RpcMessage)
    (invokeOutcome : InvokeOutcome) (toolsList : List RawTool) :
    RpcOut × SseState × Bool :=
  if !(uuidValid sessionId) then
    (RpcOut.err (-32602) ("Invalid session ID format: " ++ sessionId) msg.id, st, false)
  else if msg.jsonrpc ≠ some "2.0" then
    (RpcOut.err (-32600) "Invalid JSON-RPC request" msg.id, st, false)
  else
    let method := msg.method.getD ""
    if method = "" then
      (RpcOut.err (-32600) "Method not specified" msg.id, st, false)
    else if method = "initialize" then
      let r := handleInitialize appVersion st sessionId msg
      (r.1, r.2, false)
    else if method = "initialized" ∨ method = "notifications/initialized" then
      let r := handleInitialized st sessionId
      (r.1, r.2, false)
    else if method = "notifications/cancelled" then
      (RpcOut.emptyResult, st, false)
    else if method = "tools/list" then
      let r := handleToolsList st sessionId msg toolsList
      (r.1, r.2, false)
    else if method = "tools/call" then
      handleToolsCall st sessionId msg invokeOutcome
    else
      (RpcOut.err (-32601) ("Method not found: " ++ method) msg.id, st, false)

theorem alGet_alInsert_self {α : Type} (l : List (String × α)) (k : String) (v : α) :
    alGet (alInsert l k v) k = some v := by
  simp [alInsert, alGet]

theorem sendMessage_push (st : SseState) (sid : String) (msg : RpcOut)
    (q : List RpcOut) (hq : alGet st.messageQueues sid = some q)
    (ha : (alGet st.activeConnections sid).getD false = true) :
    alGet (sendMessage st sid msg).2.messageQueues sid = some (q ++ [msg]) := by
  simp [sendMessage, hq, ha, alGet_alInsert_self]

/-- C2: a tools/call posted for a session whose client record is absent
or not initialized returns the -32002 error with the request id, never
reaches `invoke_tool`, and (when the session has an active SSE queue)
the same error object is appended to that queue. -/
theorem c2_uninitialized_tools_call (uuidValid : String → Bool)
    (appVersion : String) (st : SseState) (sid : String) (msg : RpcMessage)
    (invokeOutcome : InvokeOutcome) (toolsList : List RawTool)
    (hvalid : uuidValid sid = true)
    (henv : msg.jsonrpc = some "2.0")
    (hm : msg.method = some "tools/call")
    (hinit : ∀ c, alGet st.clientInfo sid = some c → c.initialized = false) :
    (messageEndpoint uuidValid appVersion st sid msg invokeOutcome toolsList).1 =
      RpcOut.err (-32002) "Client not initialized" msg.id ∧
    (messageEndpoint uuidValid appVersion st sid msg invokeOutcome toolsList).2.2 = false ∧
    (∀ q, alGet st.messageQueues sid = some q →
      (alGet st.activeConnections sid).getD false = true →
      alGet (messageEndpoint uuidValid appVersion st sid msg
          invokeOutcome toolsList).2.1.messageQueues sid =
        some (q ++ [RpcOut.err (-32002) "Client not initialized" msg.id])) := by
  have hgate : checkClientInitialized st sid = false := by
    unfold checkClientInitialized
    cases hc : alGet st.clientInfo sid with
    | none => rfl
    | some c => exact hinit c hc
  have hend : messageEndpoint uuidValid appVersion st sid msg invokeOutcome toolsList =
      handleToolsCall st sid msg invokeOutcome := by
    simp [messageEndpoint, hvalid, henv, hm]
  rw [hend]
  unfold handleToolsCall
  rw [hgate]
  refine ⟨rfl, rfl, ?_⟩
  intro q hq ha
  simpa using sendMessage_push st sid
    (RpcOut.err (-32002) "Client not initialized" msg.id) q hq ha

/-- Witness for C2: a session that connected (queue present and active)
but has not sent the initialized notification posts a tools/call. -/
theorem c2_witness :
    (messageEndpoint (fun _ => true) "0.4.0"
        ⟨[("abc", [])], [("abc", ⟨false, "2024-11-05"⟩)], [("abc", true)]⟩
        "abc" ⟨some "2.0", some "tools/call", some 7, none⟩
        InvokeOutcome.resultOpaque []).1 =
      RpcOut.err (-32002) "Client not initialized" (some 7) ∧
    (messageEndpoint (fun _ => true) "0.4.0"
        ⟨[("abc", [])], [("abc", ⟨false, "2024-11-05"⟩)], [("abc", true)]⟩
        "abc" ⟨some "2.0", some "tools/call", some 7, none⟩
        InvokeOutcome.resultOpaque []).2.2 = false ∧
    alGet (messageEndpoint (fun _ => true) "0.4.0"
        ⟨[("abc", [])], [("abc", ⟨false, "2024-11-05"⟩)], [("abc", true)]⟩
        "abc" ⟨some "2.0", some "tools/call", some 7, none⟩
        InvokeOutcome.resultOpaque []).2.1.messageQueues "abc" =
      some [RpcOut.err (-32002) "Client not initialized" (some 7)] := by
  have h := c2_uninitialized_tools_call (fun _ => true) "0.4.0"
    ⟨[("abc", [])], [("abc", ⟨false, "2024-11-05"⟩)], [("abc", true)]⟩
    "abc" ⟨some "2.0", some "tools/call", some 7, none⟩
    InvokeOutcome.resultOpaque [] rfl rfl rfl
    (by intro c hc; cases hc; rfl)
  exact ⟨h.1, h.2.1, h.2.2 [] rfl rfl⟩

def isErrorWithCode (r : RpcOut) (c : Int) : Bool :=
  match r with
  | .err c' _ _ => c' == c
  | _ => false

/-- C4 (counterexample): a POST whose session_id is a well-formed UUID
string that identifies no existing session is not answered with -32602.
The uuid collaborator accepts the string
123e4567-e89b-12d3-a456-426614174000, the transport state holds no
session at all, and an initialize message is dispatched normally and
answered with a result. -/
theorem c4_counterexample :
    (messageEndpoint (fun _ => true) "0.4.0" ⟨[], [], []⟩
        "123e4567-e89b-12d3-a456-426614174000"
        ⟨some "2.0", some "initialize", some 1, none⟩
        InvokeOutcome.resultOpaque []).1 =
      RpcOut.initResult (some 1) "2024-11-05" appName "0.4.0" ∧
    isErrorWithCode (messageEndpoint (fun _ => true) "0.4.0" ⟨[], [], []⟩
        "123e4567-e89b-12d3-a456-426614174000"
        ⟨some "2.0", some "initialize", some 1, none⟩
        InvokeOutcome.resultOpaque []).1 (-32602) = false := by
  constructor
  · rfl
  · rfl

/-- C4 (amended): the -32602 error is returned when the session_id is
not a well-formed UUID (session existence is not checked: a well-formed
id with no session record is dispatched normally, initialize always
answering with a result); a message lacking jsonrpc equal to 2.0 or
lacking a method gets -32600; an unrecognized method gets -32601. -/
theorem c4_message_endpoint_amended (uuidValid : String → Bool)
    (appVersion : String) (st : SseState) (sid : String) (msg : RpcMessage)
    (invokeOutcome : InvokeOutcome) (toolsList : List RawTool) :
    (uuidValid sid = false →
      (messageEndpoint uuidValid appVersion st sid msg invokeOutcome toolsList).1 =
        RpcOut.err (-32602) ("Invalid session ID format: " ++ sid) msg.id) ∧
    (uuidValid sid = true → msg.jsonrpc ≠ some "2.0" →
      (messageEndpoint uuidValid appVersion st sid msg invokeOutcome toolsList).1 =
        RpcOut.err (-32600) "Invalid JSON-RPC request" msg.id) ∧
    (uuidValid sid = true → msg.jsonrpc = some "2.0" → msg.method.getD "" = "" →
      (messageEndpoint uuidValid appVersion st sid msg invokeOutcome toolsList).1 =
        RpcOut.err (-32600) "Method not specified" msg.id) ∧
    (∀ m, uuidValid sid = true → msg.jsonrpc = some "2.0" → msg.method = some m →
      m ≠ "" → m ≠ "initialize" → m ≠ "initialized" →
      m ≠ "notifications/initialized" → m ≠ "notifications/cancelled" →
      m ≠ "tools/list" → m ≠ "tools/call" →
      (messageEndpoint uuidValid appVersion st sid msg invokeOutcome toolsList).1 =
        RpcOut.err (-32601) ("Method not found: " ++ m) msg.id) ∧
    (uuidValid sid = true → msg.jsonrpc = some "2.0" → msg.method = some "initialize" →
      (messageEndpoint uuidValid appVersion st sid msg invokeOutcome toolsList).1 =
        RpcOut.initResult msg.id "2024-11-05" appName appVersion) := by
  refine ⟨?_, ?_, ?_, ?_, ?_⟩
  · intro hvalid
    simp [messageEndpoint, hvalid]
  · intro hvalid henv
    simp [messageEndpoint, hvalid, henv]
  · intro hvalid henv hm
    simp [messageEndpoint, hvalid, henv, hm]
  · intro m hvalid henv hm hne h1 h2 h3 h4 h5 h6
    simp [messageEndpoint, hvalid, henv, hm, hne, h1, h2, h3, h4, h5, h6]
  · intro hvalid henv hm
    simp [messageEndpoint, hvalid, henv, hm, handleInitialize]

/-- Witness for C4 (amended): a malformed session id, a message with a
bad envelope, a missing method, an unknown method, and an initialize
for a fresh well-formed session id. -/
theorem c4_witness :
    (messageEndpoint (fun _ => false) "0.4.0" ⟨[], [], []⟩ "not-a-uuid"
        ⟨some "2.0", some "initialize", some 1, none⟩
        InvokeOutcome.resultOpaque []).1 =
      RpcOut.err (-32602) ("Invalid session ID format: " ++ "not-a-uuid") (some 1) ∧
    (messageEndpoint (fun _ => true) "0.4.0" ⟨[], [], []⟩ "abc"
        ⟨some "1.0", some "initialize", some 2, none⟩
        InvokeOutcome.resultOpaque []).1 =
      RpcOut.err (-32600) "Invalid JSON-RPC request" (some 2) ∧
    (messageEndpoint (fun _ => true) "0.4.0" ⟨[], [], []⟩ "abc"
        ⟨some "2.0", none, some 3, none⟩ InvokeOutcome.resultOpaque []).1 =
      RpcOut.err (-32600) "Method not specified" (some 3) ∧
    (messageEndpoint (fun _ => true) "0.4.0" ⟨[], [], []⟩ "abc"
        ⟨some "2.0", some "resources/list", some 4, none⟩
        InvokeOutcome.resultOpaque []).1 =
      RpcOut.err (-32601) ("Method not found: " ++ "resources/list") (some 4) ∧
    (messageEndpoint (fun _ => true) "0.4.0" ⟨[], [], []⟩ "abc"
        ⟨some "2.0", some "initialize", some 5, none⟩
        InvokeOutcome.resultOpaque []).1 =
      RpcOut.initResult (some 5) "2024-11-05" appName "0.4.0" := by
  refine ⟨?_, ?_, ?_, ?_, ?_⟩
  · exact (c4_message_endpoint_amended (fun _ => false) "0.4.0" ⟨[], [], []⟩
      "not-a-uuid" ⟨some "2.0", some "initialize", some 1, none⟩
      InvokeOutcome.resultOpaque []).1 rfl
  · exact (c4_message_endpoint_amended (fun _ => true) "0.4.0" ⟨[], [], []⟩
      "abc" ⟨some "1.0", some "initialize", some 2, none⟩
      InvokeOutcome.resultOpaque []).2.1 rfl (by decide)
  · exact (c4_message_endpoint_amended (fun _ => true) "0.4.0" ⟨[], [], []⟩
      "abc" ⟨some "2.0", none, some 3, none⟩
      InvokeOutcome.resultOpaque []).2.2.1 rfl rfl rfl
  · exact (c4_message_endpoint_amended (fun _ => true) "0.4.0" ⟨[], [], []⟩
      "abc" ⟨some "2.0", some "resources/list", some 4, none⟩
      InvokeOutcome.resultOpaque []).2.2.2.1 "resources/list" rfl rfl rfl
      (by decide) (by decide) (by decide) (by decide) (by decide) (by decide)
      (by decide)
  · exact (c4_message_endpoint_amended (fun _ => true) "0.4.0" ⟨[], [], []⟩
      "abc" ⟨some "2.0", some "initialize", some 5, none⟩
      InvokeOutcome.resultOpaque []).2.2.2.2 rfl rfl rfl

/-! ## Server manager state (C3, C7, C8, C9, C10)

Embedding of the shared state owned by `McpServerService`
(src/server/services/mcpserver/init module): the `mcpservers` registry,
the nested `private_server_mapping` dict (user, then base server, to
private name) embedded as a flat association keyed by the pair, the
`server_start_times` dict, and — for the lifecycle service and the
config cache — the cache directory as an association from server name
to cached tool list, plus two ghost fields: `discovered` records the
names successfully discovered and not deleted since, `spawnCount`
counts `create_subprocess_exec` calls.  OS process termination and the
user-file store are collaborators: termination is modeled as
succeeding, user records enter as an association-list parameter.
Python `None` and empty-dict env values are conflated (every touched
code path tests them by truthiness). -/

structure UserConfig where
  env : List (String × String)
  serverEnv : List (String × List (String × String))
  serverTimeouts : List (String × Int)
  serverTimeout : Option Int
  deriving DecidableEq, Repr

/-- Embedding of `McpServerPrivateService.get_user_env_for_server`
(src/server/services/mcpserver/private.py, lines 25-51): a truthy
per-server `serverEnv` entry is returned on its own, otherwise a truthy
global `env`, otherwise nothing. -/
def getUserEnvForServer (users : List (String × UserConfig))
    (username serverName : String) : Option (List (String × String)) :=
  match alGet users username with
  | none => none
  | some cfg =>
    match alGet cfg.serverEnv serverName with
    | some se =>
      if se.isEmpty then (if cfg.env.isEmpty then none else some cfg.env)
      else some se
    | none => if cfg.env.isEmpty then none else some cfg.env

/-- Embedding of `McpServerPrivateService.get_server_timeout`
(src/server/services/mcpserver/private.py, lines 53-82).  Presence is
tested with `is not None`, so a zero timeout counts as present. -/
def getServerTimeout (users : List (String × UserConfig))
    (username serverName : String) : Int :=
  match alGet users username with
  | none => 3600
  | some cfg =>
    match alGet cfg.serverTimeouts serverName with
    | some t => t
    | none =>
      match cfg.serverTimeout with
      | some t => t
      | none => 3600

/-- Timeout exactly as claim C9 words it: the per-server entry if
present, else the global value if present, else 3600 seconds. -/
def timeoutSpec (users : List (String × UserConfig))
    (username serverName : String) : Int :=
  match alGet users username with
  | none => 3600
  | some cfg => (alGet cfg.serverTimeouts serverName).getD (cfg.serverTimeout.getD 3600)

structure SrvEntry where
  command : String
  args : List String
  env : List (String × String)
  description : String
  status : Option String
  tools : List RawTool
  deriving DecidableEq, Repr

structure MgrState where
  mcpservers : List (String × SrvEntry)
  privateServerMapping : List (String × String × String)
  serverStartTimes : List (String × Int)
  cacheFiles : List (String × List RawTool)
  discovered : List String
  spawnCount : Nat
  deriving DecidableEq, Repr

def mapLookup : List (String × String × String) → String → String → Option String
  | [], _, _ => none
  | e :: rest, u, b =>
    if e.1 = u ∧ e.2.1 = b then some e.2.2 else mapLookup rest u b

def mapErase (m : List (String × String × String)) (u b : String) :
    List (String × String × String) :=
  m.filter (fun e => ¬(e.1 = u ∧ e.2.1 = b))

def mapValues (m : List (String × String × String)) : List String :=
  m.map (fun e => e.2.2)

/-- Python membership test of a string in a list, as used by
`list_mcpservers` on the mapping values. -/
def listHasStr (l : List String) (s : String) : Bool :=
  l.any (fun x => x = s)

/-- Python substring test `"-" in name` (a single-character needle, so
character membership). -/
def hasDash (s : String) : Bool :=
  s.data.any (fun c => c = '-')

/-- Embedding of `McpServersFileConfigService.save_mcpserver_toolcache`
(src/mcpo_simple_server/services/config/json_files/mcpservers.py, lines
207-222): the file is written only when it does not already exist. -/
def saveToolcache (fs : List (String × List RawTool)) (name : String)
    (data : List RawTool) : List (String × List RawTool) :=
  if (alGet fs name).isSome then fs else fs ++ [(name, data)]

/-- Embedding of `delete_mcpserver_toolcache` (same module, lines
224-231). -/
def deleteToolcache (fs : List (String × List RawTool)) (name : String) :
    List (String × List RawTool) :=
  alErase fs name

inductive AddResult where
  | added
  | alreadyExists
  | failed
  deriving DecidableEq, Repr

/-- Embedding of `add_mcpserver` plus the success path of
`start_mcpserver` and the discovery/cache step
(src/mcpo_simple_server/services/mcpserver/lifecycle.py, lines 155-326).
`spawnOk` is the outcome of `create_subprocess_exec`, `discoverOk` and
`discoveredTools` the outcome of `fetch_server_metadata` (the child
being a collaborator).  A failed discovery still registers the entry
with status error and empty tools and still reports success to the
caller; a successful one stores the tools and saves the write-once
cache file. -/
def addMcpserver (st : MgrState) (name command : String) (args : List String)
    (env : List (String × String)) (description : String)
    (spawnOk discoverOk : Bool) (discoveredTools : List RawTool) :
    AddResult × MgrState :=
  if (alGet st.mcpservers name).isSome then (.alreadyExists, st)
  else if !spawnOk then (.failed, st)
  else
    let entry : SrvEntry :=
      ⟨command, args, env, description,
        some (if discoverOk then "running" else "error"),
        if discoverOk then discoveredTools else []⟩
    let st1 := { st with
      mcpservers := alInsert st.mcpservers name entry,
      spawnCount := st.spawnCount + 1 }
    if discoverOk then
      (.added, { st1 with
        cacheFiles := saveToolcache st1.cacheFiles name discoveredTools,
        discovered := name :: st1.discovered })
    else (.added, st1)

/-- Embedding of the cache branch of `initialize`
(src/mcpo_simple_server/services/mcpserver/lifecycle.py, lines 63-75):
a server whose cache file exists is registered from the cache without
starting a process. -/
def loadMcpserverFromCache (st : MgrState) (name command : String)
    (args : List String) (env : List (String × String)) (description : String) :
    MgrState :=
  match alGet st.cacheFiles name with
  | none => st
  | some tools =>
    { st with mcpservers :=
        alInsert st.mcpservers name ⟨command, args, env, description, none, tools⟩ }

/-- Embedding of `restart_mcpserver` on an existing entry
(src/mcpo_simple_server/services/mcpserver/lifecycle.py, lines
617-678): stop (state unchanged), start again, rediscover, save the
write-once cache on success. -/
def restartMcpserver (st : MgrState) (name : String)
    (spawnOk discoverOk : Bool) (discoveredTools : List RawTool) :
    Bool × MgrState :=
  match alGet st.mcpservers name with
  | none => (false, st)
  | some entry =>
    if !spawnOk then (false, st)
    else
      let entry2 := { entry with
        status := some (if discoverOk then "running" else "error"),
        tools := if discoverOk then discoveredTools else [] }
      let st1 := { st with
        mcpservers := alInsert st.mcpservers name entry2,
        spawnCount := st.spawnCount + 1 }
      if discoverOk then
        (true, { st1 with
          cacheFiles := saveToolcache st1.cacheFiles name discoveredTools,
          discovered := name :: st1.discovered })
      else (true, st1)

inductive PrivResult where
  | started (privateName : String)
  | alreadyRunning (privateName : String)
  | baseNotFound
  | startFailed
  deriving DecidableEq, Repr

/-- Embedding of `McpServerPrivateService.start_private_server`
(src/server/services/mcpserver/private.py, lines 97-159): refuse when
the base server is unknown, return immediately when the private name is
already registered, otherwise overlay the user env on a copy of the
base env, spawn through the lifecycle service, then record the start
time and the user-to-base mapping entry. -/
def startPrivateServer (st : MgrState) (users : List (String × UserConfig))
    (username serverName : String) (now : Int)
    (spawnOk discoverOk : Bool) (discoveredTools : List RawTool) :
    PrivResult × MgrState :=
  match alGet st.mcpservers serverName with
  | none => (.baseNotFound, st)
  | some base =>
    let privateName := serverName ++ "-" ++ username
    if (alGet st.mcpservers privateName).isSome then (.alreadyRunning privateName, st)
    else
      let env :=
        match getUserEnvForServer users username serverName with
        | some ue => dictUpdate base.env ue
        | none => base.env
      let description := "Private " ++ base.description ++ " for " ++ username
      let step := addMcpserver st privateName base.command base.args env description
        spawnOk discoverOk discoveredTools
      match step.1 with
      | .added =>
        (.started privateName, { step.2 with
          serverStartTimes := alInsert step.2.serverStartTimes privateName now,
          privateServerMapping :=
            (username, serverName, privateName) ::
              mapErase step.2.privateServerMapping username serverName })
      | _ => (.startFailed, step.2)

inductive StopPrivResult where
  | ok
  | noUserServers
  | noServerForUser
  | stopFailed
  deriving DecidableEq, Repr

/-- Embedding of `McpServerPrivateService.stop_private_server`
(src/server/services/mcpserver/private.py, lines 161-210) over
`stop_mcpserver`, which reports success exactly when the name is
registered (termination of the OS process is a collaborator modeled as
succeeding) and never removes the registry entry.  On success the
mapping entry and the start time are dropped. -/
def stopPrivateServer (st : MgrState) (username serverName : String) :
    StopPrivResult × MgrState :=
  if !(st.privateServerMapping.any (fun e => e.1 = username)) then
    (.noUserServers, st)
  else
    match mapLookup st.privateServerMapping username serverName with
    | none => (.noServerForUser, st)
    | some privateName =>
      if (alGet st.mcpservers privateName).isSome then
        (.ok, { st with
          privateServerMapping := mapErase st.privateServerMapping username serverName,
          serverStartTimes := alErase st.serverStartTimes privateName })
      else (.stopFailed, st)

/-- Idleness test of `cleanup_idle_private_servers` for one mapping
entry: a recorded start time whose age strictly exceeds the user
timeout. -/
def idleCondition (st : MgrState) (users : List (String × UserConfig))
    (now : Int) (e : String × String × String) : Bool :=
  match alGet st.serverStartTimes e.2.2 with
  | none => false
  | some t => now - t > getServerTimeout users e.1 e.2.1

/-- Embedding of `McpServerPrivateService.cleanup_idle_private_servers`
(src/server/services/mcpserver/private.py, lines 212-267): collect the
idle entries against the current state, then stop each in turn. -/
def cleanupIdle (st : MgrState) (users : List (String × UserConfig))
    (now : Int) : MgrState :=
  let toClean := st.privateServerMapping.filter (idleCondition st users now)
  toClean.foldl (fun s e => (stopPrivateServer s e.1 e.2.1).2) st

/-- Embedding of `McpServerPrivateService.list_user_servers`
(src/server/services/mcpserver/private.py, lines 269-315), projected to
the names of the returned entries: the mapping entries of the user
whose private name is registered. -/
def listUserServers (st : MgrState) (username : String) : List String :=
  (st.privateServerMapping.filter (fun e => e.1 = username)).filterMap
    (fun e => if (alGet st.mcpservers e.2.2).isSome then some e.2.2 else none)

/-- Embedding of `delete_mcpserver`
(src/mcpo_simple_server/services/mcpserver/lifecycle.py, lines
555-615): unknown names error out without touching anything; otherwise
the registry entry, the start time, every mapping entry whose value is
the name, the config cache file are all removed. -/
def deleteMcpserver (st : MgrState) (name : String) : Bool × MgrState :=
  if (alGet st.mcpservers name).isNone then (false, st)
  else
    (true, { st with
      mcpservers := alErase st.mcpservers name,
      serverStartTimes := alErase st.serverStartTimes name,
      privateServerMapping := st.privateServerMapping.filter (fun e => e.2.2 ≠ name),
      cacheFiles := deleteToolcache st.cacheFiles name,
      discovered := st.discovered.filter (fun n => n ≠ name) })

/-- Embedding of the start-time refresh performed by
`invoke_tool` for a private server
(src/server/services/mcpserver/tools.py, line 113). -/
def touchStartTime (st : MgrState) (name : String) (now : Int) : MgrState :=
  { st with serverStartTimes := alInsert st.serverStartTimes name now }

/-- Embedding of `list_mcpservers`
(src/mcpo_simple_server/services/mcpserver/lifecycle.py, lines
785-819), projected to the names of the returned entries: a server is
skipped exactly when its name contains a dash and appears among the
private-mapping values. -/
def listMcpservers (st : MgrState) : List String :=
  (st.mcpservers.filter (fun e =>
    !(hasDash e.1 && listHasStr (mapValues st.privateServerMapping) e.1))).map
    (fun e => e.1)

/-- Reachable manager states: the empty initial state closed under the
embedded operations, with arbitrary collaborator outcomes. -/
inductive Reachable : MgrState → Prop where
  | init : Reachable ⟨[], [], [], [], [], 0⟩
  | add (st : MgrState) (n c : String) (a : List String)
      (e : List (String × String)) (d : String) (so dk : Bool)
      (dt : List RawTool) : Reachable st →
      Reachable (addMcpserver st n c a e d so dk dt).2
  | loadCache (st : MgrState) (n c : String) (a : List String)
      (e : List (String × String)) (d : String) : Reachable st →
      Reachable (loadMcpserverFromCache st n c a e d)
  | restart (st : MgrState) (n : String) (so dk : Bool)
      (dt : List RawTool) : Reachable st →
      Reachable (restartMcpserver st n so dk dt).2
  | startPrivate (st : MgrState) (users : List (String × UserConfig))
      (u b : String) (now : Int) (so dk : Bool) (dt : List RawTool) :
      Reachable st → Reachable (startPrivateServer st users u b now so dk dt).2
  | stopPrivate (st : MgrState) (u b : String) : Reachable st →
      Reachable (stopPrivateServer st u b).2
  | cleanup (st : MgrState) (users : List (String × UserConfig))
      (now : Int) : Reachable st → Reachable (cleanupIdle st users now)
  | delete (st : MgrState) (n : String) : Reachable st →
      Reachable (deleteMcpserver st n).2
  | touch (st : MgrState) (n : String) (now : Int) : Reachable st →
      Reachable (touchStartTime st n now)

theorem alGet_alErase_ne {α : Type} (l : List (String × α)) (k k' : String)
    (h : k' ≠ k) : alGet (alErase l k) k' = alGet l k' := by
  induction l with
  | nil => rfl
  | cons hd tl ih =>
    obtain ⟨k₀, v⟩ := hd
    by_cases h₀ : k₀ = k
    · subst h₀
      simp [alErase, alGet, Ne.symm h, ih]
    · by_cases h₁ : k₀ = k' <;> simp [alErase, alGet, h₀, h₁, ih, h]

theorem alGet_alInsert_ne {α : Type} (l : List (String × α)) (k k' : String)
    (v : α) (h : k' ≠ k) : alGet (alInsert l k v) k' = alGet l k' := by
  simp [alInsert, alGet, Ne.symm h, alGet_alErase_ne l k k' h]

theorem str_data_append (a b : String) : (a ++ b).data = a.data ++ b.data := rfl

theorem private_name_ne_base (b u : String) : b ++ "-" ++ u ≠ b := by
  intro h
  have h₂ := congrArg String.data h
  rw [str_data_append, str_data_append] at h₂
  have hlen := congrArg List.length h₂
  simp only [List.length_append] at hlen
  have hone : ("-" : String).data.length = 1 := rfl
  rw [hone] at hlen
  omega

theorem addMcpserver_fresh_spawn (st : MgrState) (n c : String)
    (a : List String) (e : List (String × String)) (d : String) (dk : Bool)
    (dt : List RawTool) (h : alGet st.mcpservers n = none) :
    (addMcpserver st n c a e d true dk dt).1 = .added ∧
    alGet (addMcpserver st n c a e d true dk dt).2.mcpservers n =
      some ⟨c, a, e, d, some (if dk then "running" else "error"),
        if dk then dt else []⟩ ∧
    (∀ k, k ≠ n →
      alGet (addMcpserver st n c a e d true dk dt).2.mcpservers k =
        alGet st.mcpservers k) ∧
    (addMcpserver st n c a e d true dk dt).2.spawnCount = st.spawnCount + 1 ∧
    (addMcpserver st n c a e d true dk dt).2.privateServerMapping =
      st.privateServerMapping ∧
    (addMcpserver st n c a e d true dk dt).2.serverStartTimes =
      st.serverStartTimes := by
  cases dk <;>
    refine ⟨?_, ?_, ?_, ?_, ?_, ?_⟩ <;>
      simp [addMcpserver, h, alGet_alInsert_self] <;>
        (intro k hk; exact alGet_alInsert_ne st.mcpservers n k _ hk)

/-- Unfolding of the success path of `startPrivateServer` when the base
exists, the private name is fresh, and the spawn succeeds. -/
theorem startPrivateServer_fresh (st : MgrState)
    (users : List (String × UserConfig)) (u b : String) (now : Int)
    (dk : Bool) (dt : List RawTool) (base : SrvEntry)
    (hbase : alGet st.mcpservers b = some base)
    (hfresh : alGet st.mcpservers (b ++ "-" ++ u) = none) :
    startPrivateServer st users u b now true dk dt =
      (.started (b ++ "-" ++ u),
        { (addMcpserver st (b ++ "-" ++ u) base.command base.args
            (match getUserEnvForServer users u b with
             | some ue => dictUpdate base.env ue
             | none => base.env)
            ("Private " ++ base.description ++ " for " ++ u) true dk dt).2 with
          serverStartTimes :=
            alInsert (addMcpserver st (b ++ "-" ++ u) base.command base.args
              (match getUserEnvForServer users u b with
               | some ue => dictUpdate base.env ue
               | none => base.env)
              ("Private " ++ base.description ++ " for " ++ u) true dk dt).2.serverStartTimes
              (b ++ "-" ++ u) now,
          privateServerMapping :=
            (u, b, b ++ "-" ++ u) ::
              mapErase (addMcpserver st (b ++ "-" ++ u) base.command base.args
                (match getUserEnvForServer users u b with
                 | some ue => dictUpdate base.env ue
                 | none => base.env)
                ("Private " ++ base.description ++ " for " ++ u) true dk dt).2.privateServerMapping
                u b }) := by
  have hadd := addMcpserver_fresh_spawn st (b ++ "-" ++ u) base.command base.args
    (match getUserEnvForServer users u b with
     | some ue => dictUpdate base.env ue
     | none => base.env)
    ("Private " ++ base.description ++ " for " ++ u) dk dt hfresh
  simp only [startPrivateServer, hbase, hfresh, Option.isSome_none,
    Bool.false_eq_true, if_false, hadd.1]

/-- Unfolding of the early-return path of `startPrivateServer` when the
private name is already registered. -/
theorem startPrivateServer_already (s : MgrState)
    (users : List (String × UserConfig)) (u b : String) (now : Int)
    (so dk : Bool) (dt : List RawTool) (base : SrvEntry)
    (hbase : alGet s.mcpservers b = some base)
    (hpriv : (alGet s.mcpservers (b ++ "-" ++ u)).isSome = true) :
    startPrivateServer s users u b now so dk dt =
      (.alreadyRunning (b ++ "-" ++ u), s) := by
  simp only [startPrivateServer, hbase, hpriv, if_true]

/-- C7: two EnsurePrivate calls with the same user and base return the
same private child name, spawn exactly one process, and the second call
succeeds without changing the state at all. -/
theorem c7_ensure_private_idempotent (st : MgrState)
    (users : List (String × UserConfig)) (u b : String) (now₁ now₂ : Int)
    (dk₁ dk₂ : Bool) (dt₁ dt₂ : List RawTool) (base : SrvEntry)
    (hbase : alGet st.mcpservers b = some base)
    (hfresh : alGet st.mcpservers (b ++ "-" ++ u) = none) :
    (startPrivateServer st users u b now₁ true dk₁ dt₁).1 =
      .started (b ++ "-" ++ u) ∧
    (startPrivateServer (startPrivateServer st users u b now₁ true dk₁ dt₁).2
        users u b now₂ true dk₂ dt₂).1 = .alreadyRunning (b ++ "-" ++ u) ∧
    (startPrivateServer (startPrivateServer st users u b now₁ true dk₁ dt₁).2
        users u b now₂ true dk₂ dt₂).2 =
      (startPrivateServer st users u b now₁ true dk₁ dt₁).2 ∧
    (startPrivateServer st users u b now₁ true dk₁ dt₁).2.spawnCount =
      st.spawnCount + 1 := by
  have hadd := addMcpserver_fresh_spawn st (b ++ "-" ++ u) base.command base.args
    (match getUserEnvForServer users u b with
     | some ue => dictUpdate base.env ue
     | none => base.env)
    ("Private " ++ base.description ++ " for " ++ u) dk₁ dt₁ hfresh
  have h₁ := startPrivateServer_fresh st users u b now₁ dk₁ dt₁ base hbase hfresh
  have hbne : b ≠ b ++ "-" ++ u := fun h => private_name_ne_base b u h.symm
  have hbase₁ : alGet (startPrivateServer st users u b now₁ true dk₁ dt₁).2.mcpservers b =
      some base := by
    rw [h₁]
    exact (hadd.2.2.1 b hbne).trans hbase
  have hpriv₁ : (alGet (startPrivateServer st users u b now₁ true dk₁ dt₁).2.mcpservers
      (b ++ "-" ++ u)).isSome = true := by
    rw [h₁]
    show (alGet (addMcpserver st (b ++ "-" ++ u) base.command base.args
      (match getUserEnvForServer users u b with
       | some ue => dictUpdate base.env ue
       | none => base.env)
      ("Private " ++ base.description ++ " for " ++ u) true dk₁ dt₁).2.mcpservers
      (b ++ "-" ++ u)).isSome = true
    rw [hadd.2.1]
    rfl
  have h₂ := startPrivateServer_already
    (startPrivateServer st users u b now₁ true dk₁ dt₁).2 users u b now₂
    true dk₂ dt₂ base hbase₁ hpriv₁
  refine ⟨?_, ?_, ?_, ?_⟩
  · rw [h₁]
  · rw [h₂]
  · rw [h₂]
  · rw [h₁]
    exact hadd.2.2.2.1

/-- Witness for C7 on a one-server registry. -/
theorem c7_witness :
    (startPrivateServer
        ⟨[("calculator", ⟨"cmd", [], [], "calc", some "running", []⟩)],
          [], [], [], [], 0⟩ [] "donald" "calculator" 5 true true []).1 =
      .started ("calculator" ++ "-" ++ "donald") ∧
    (startPrivateServer
        (startPrivateServer
          ⟨[("calculator", ⟨"cmd", [], [], "calc", some "running", []⟩)],
            [], [], [], [], 0⟩ [] "donald" "calculator" 5 true true []).2
        [] "donald" "calculator" 9 true true []).1 =
      .alreadyRunning ("calculator" ++ "-" ++ "donald") ∧
    (startPrivateServer
        (startPrivateServer
          ⟨[("calculator", ⟨"cmd", [], [], "calc", some "running", []⟩)],
            [], [], [], [], 0⟩ [] "donald" "calculator" 5 true true []).2
        [] "donald" "calculator" 9 true true []).2 =
      (startPrivateServer
        ⟨[("calculator", ⟨"cmd", [], [], "calc", some "running", []⟩)],
          [], [], [], [], 0⟩ [] "donald" "calculator" 5 true true []).2 ∧
    (startPrivateServer
        ⟨[("calculator", ⟨"cmd", [], [], "calc", some "running", []⟩)],
          [], [], [], [], 0⟩ [] "donald" "calculator" 5 true true []).2.spawnCount =
      0 + 1 := by
  exact c7_ensure_private_idempotent
    ⟨[("calculator", ⟨"cmd", [], [], "calc", some "running", []⟩)],
      [], [], [], [], 0⟩ [] "donald" "calculator" 5 9 true true [] []
    ⟨"cmd", [], [], "calc", some "running", []⟩ (by decide) (by decide)

/-- C3 (counterexample): user donald has a global env holding key A and
a per-server env for calculator holding key B; the shared env is empty.
The claim predicts the spawned private env maps A to 1 (global-env keys
survive the overlay), but the spawned env of calculator-donald does not
contain A at all: the per-server env replaced the global env instead of
being layered on top of it. -/
theorem c3_counterexample :
    (match alGet (startPrivateServer
        ⟨[("calculator", ⟨"cmd", [], [], "calc", some "running", []⟩)],
          [], [], [], [], 0⟩
        [("donald", ⟨[("A", "1")], [("calculator", [("B", "2")])], [], none⟩)]
        "donald" "calculator" 0 true true []).2.mcpservers
        "calculator-donald" with
      | some e => alGet e.env "A"
      | none => none) = none ∧
    alGet (dictUpdate (dictUpdate [] [("A", "1")]) [("B", "2")]) "A" =
      some "1" := by
  constructor
  · rfl
  · rfl

/-- C3 (amended): the spawned private env equals the shared env
overlaid by the user env chosen as follows: the per-server env when it
is present and non-empty, else the global env when present and
non-empty, else nothing; the chosen env overwrites duplicate keys of
the shared env, and when a non-empty per-server env exists the global
env is ignored entirely. -/
theorem c3_env_overlay_amended (st : MgrState)
    (users : List (String × UserConfig)) (u b : String) (now : Int)
    (dk : Bool) (dt : List RawTool) (base : SrvEntry) (k : String)
    (hbase : alGet st.mcpservers b = some base)
    (hfresh : alGet st.mcpservers (b ++ "-" ++ u) = none) :
    (match alGet (startPrivateServer st users u b now true dk dt).2.mcpservers
        (b ++ "-" ++ u) with
      | some entry => alGet entry.env k
      | none => none) =
      (match
        (match alGet users u with
         | none => none
         | some cfg =>
           match alGet cfg.serverEnv b with
           | some se =>
             if se.isEmpty then (if cfg.env.isEmpty then none else some cfg.env)
             else some se
           | none => if cfg.env.isEmpty then none else some cfg.env) with
       | some ue => optOr (alGet ue k) (alGet base.env k)
       | none => alGet base.env k) := by
  have hspec : (match alGet users u with
      | none => none
      | some cfg =>
        match alGet cfg.serverEnv b with
        | some se =>
          if se.isEmpty then (if cfg.env.isEmpty then none else some cfg.env)
          else some se
        | none => if cfg.env.isEmpty then none else some cfg.env) =
      getUserEnvForServer users u b := rfl
  rw [hspec]
  have hadd := addMcpserver_fresh_spawn st (b ++ "-" ++ u) base.command base.args
    (match getUserEnvForServer users u b with
     | some ue => dictUpdate base.env ue
     | none => base.env)
    ("Private " ++ base.description ++ " for " ++ u) dk dt hfresh
  rw [startPrivateServer_fresh st users u b now dk dt base hbase hfresh]
  simp only [hadd.2.1]
  cases hue : getUserEnvForServer users u b with
  | none => rfl
  | some ue => exact alGet_dictUpdate base.env ue k

/-- Witness for C3 (amended): with a shared env mapping A to 0, a
global env mapping A to 1 and a per-server env mapping B to 2, the
spawned env maps A to 0 (shared survives, global ignored) and B to 2. -/
theorem c3_witness :
    (match alGet (startPrivateServer
        ⟨[("calculator", ⟨"cmd", [], [("A", "0")], "calc", some "running", []⟩)],
          [], [], [], [], 0⟩
        [("donald", ⟨[("A", "1")], [("calculator", [("B", "2")])], [], none⟩)]
        "donald" "calculator" 0 true true []).2.mcpservers
        ("calculator" ++ "-" ++ "donald") with
      | some entry => alGet entry.env "A"
      | none => none) =
      (match
        (match alGet [("donald",
            (⟨[("A", "1")], [("calculator", [("B", "2")])], [], none⟩ : UserConfig))]
            "donald" with
         | none => none
         | some cfg =>
           match alGet cfg.serverEnv "calculator" with
           | some se =>
             if se.isEmpty then (if cfg.env.isEmpty then none else some cfg.env)
             else some se
           | none => if cfg.env.isEmpty then none else some cfg.env) with
       | some ue => optOr (alGet ue "A") (alGet [("A", "0")] "A")
       | none => alGet [("A", "0")] "A") := by
  exact c3_env_overlay_amended
    ⟨[("calculator", ⟨"cmd", [], [("A", "0")], "calc", some "running", []⟩)],
      [], [], [], [], 0⟩
    [("donald", ⟨[("A", "1")], [("calculator", [("B", "2")])], [], none⟩)]
    "donald" "calculator" 0 true []
    ⟨"cmd", [], [("A", "0")], "calc", some "running", []⟩ "A"
    (by decide) (by decide)

theorem alGet_alErase_self {α : Type} (l : List (String × α)) (k : String) :
    alGet (alErase l k) k = none := by
  induction l with
  | nil => rfl
  | cons hd tl ih =>
    obtain ⟨k₀, v⟩ := hd
    by_cases h₀ : k₀ = k <;> simp [alErase, alGet, h₀, ih]

/-- Pointwise file-existence semantics of the write-once save. -/
theorem saveToolcache_isSome (fs : List (String × List RawTool))
    (n₀ : String) (d : List RawTool) (n : String) :
    ((alGet (saveToolcache fs n₀ d) n).isSome = true ↔
      (n = n₀ ∨ (alGet fs n).isSome = true)) := by
  unfold saveToolcache
  by_cases hs : (alGet fs n₀).isSome = true
  · by_cases hn : n = n₀ <;> simp [hs, hn]
  · simp only [hs, if_false, Bool.false_eq_true]
    rw [alGet_append]
    by_cases hn : n = n₀
    · subst hn
      cases hg : alGet fs n with
      | none => simp [alGet, optOr, hg]
      | some w => rw [hg] at hs; simp at hs
    · have hnone : alGet [(n₀, d)] n = none := by
        simp only [alGet]
        rw [if_neg (fun hh : n₀ = n => hn hh.symm)]
      rw [hnone]
      cases hg : alGet fs n <;> simp [optOr, hg, hn]

/-- Cache-file invariant for C8: a cache file exists exactly for the
names discovered at least once and not deleted since. -/
def cacheInv (st : MgrState) : Prop :=
  ∀ n, ((alGet st.cacheFiles n).isSome = true ↔ n ∈ st.discovered)

theorem cacheInv_addMcpserver (st : MgrState) (n c : String) (a : List String)
    (e : List (String × String)) (d : String) (so dk : Bool)
    (dt : List RawTool) (h : cacheInv st) :
    cacheInv (addMcpserver st n c a e d so dk dt).2 := by
  unfold addMcpserver
  split
  · exact h
  · split
    · exact h
    · dsimp only
      split
      · intro m
        show (alGet (saveToolcache st.cacheFiles n dt) m).isSome = true ↔
          m ∈ n :: st.discovered
        rw [saveToolcache_isSome st.cacheFiles n dt m]
        simp [h m]
      · exact h

theorem cacheInv_loadCache (st : MgrState) (n c : String) (a : List String)
    (e : List (String × String)) (d : String) (h : cacheInv st) :
    cacheInv (loadMcpserverFromCache st n c a e d) := by
  unfold loadMcpserverFromCache
  split
  · exact h
  · exact h

theorem cacheInv_restart (st : MgrState) (n : String) (so dk : Bool)
    (dt : List RawTool) (h : cacheInv st) :
    cacheInv (restartMcpserver st n so dk dt).2 := by
  unfold restartMcpserver
  split
  · exact h
  · split
    · exact h
    · split
      · intro m
        rw [saveToolcache_isSome st.cacheFiles n dt m]
        simp [h m]
      · exact h

theorem stopPrivateServer_frame (s : MgrState) (u b : String) :
    (stopPrivateServer s u b).2.mcpservers = s.mcpservers ∧
    (stopPrivateServer s u b).2.cacheFiles = s.cacheFiles ∧
    (stopPrivateServer s u b).2.discovered = s.discovered ∧
    (stopPrivateServer s u b).2.spawnCount = s.spawnCount := by
  unfold stopPrivateServer
  split
  · exact ⟨rfl, rfl, rfl, rfl⟩
  · split
    · exact ⟨rfl, rfl, rfl, rfl⟩
    · split
      · exact ⟨rfl, rfl, rfl, rfl⟩
      · exact ⟨rfl, rfl, rfl, rfl⟩

theorem cacheInv_stopPrivate (s : MgrState) (u b : String) (h : cacheInv s) :
    cacheInv (stopPrivateServer s u b).2 := by
  intro m
  rw [(stopPrivateServer_frame s u b).2.1, (stopPrivateServer_frame s u b).2.2.1]
  exact h m

theorem cacheInv_foldStop (L : List (String × String × String)) :
    ∀ s : MgrState, cacheInv s →
      cacheInv (L.foldl (fun s e => (stopPrivateServer s e.1 e.2.1).2) s) := by
  induction L with
  | nil => intro s h; exact h
  | cons e rest ih =>
    intro s h
    exact ih _ (cacheInv_stopPrivate s e.1 e.2.1 h)

theorem addMcpserver_not_added (st : MgrState) (n c : String) (a : List String)
    (e : List (String × String)) (d : String) (so dk : Bool)
    (dt : List RawTool)
    (h : (addMcpserver st n c a e d so dk dt).1 ≠ .added) :
    (addMcpserver st n c a e d so dk dt).2 = st := by
  revert h
  unfold addMcpserver
  split
  · intro _; rfl
  · split
    · intro _; rfl
    · dsimp only
      split
      · intro h; exact absurd rfl h
      · intro h; exact absurd rfl h

/-- Case analysis of `startPrivateServer`: the resulting state is
either unchanged or the fresh-spawn record over `addMcpserver`. -/
theorem startPrivateServer_cases (st : MgrState)
    (users : List (String × UserConfig)) (u b : String) (now : Int)
    (so dk : Bool) (dt : List RawTool) :
    (startPrivateServer st users u b now so dk dt).2 = st ∨
    (∃ base : SrvEntry, alGet st.mcpservers b = some base ∧
      (startPrivateServer st users u b now so dk dt).2 =
        { (addMcpserver st (b ++ "-" ++ u) base.command base.args
            (match getUserEnvForServer users u b with
             | some ue => dictUpdate base.env ue
             | none => base.env)
            ("Private " ++ base.description ++ " for " ++ u) so dk dt).2 with
          serverStartTimes :=
            alInsert (addMcpserver st (b ++ "-" ++ u) base.command base.args
              (match getUserEnvForServer users u b with
               | some ue => dictUpdate base.env ue
               | none => base.env)
              ("Private " ++ base.description ++ " for " ++ u) so dk dt).2.serverStartTimes
              (b ++ "-" ++ u) now,
          privateServerMapping :=
            (u, b, b ++ "-" ++ u) ::
              mapErase (addMcpserver st (b ++ "-" ++ u) base.command base.args
                (match getUserEnvForServer users u b with
                 | some ue => dictUpdate base.env ue
                 | none => base.env)
                ("Private " ++ base.description ++ " for " ++ u) so dk dt).2.privateServerMapping
                u b }) := by
  cases hbase : alGet st.mcpservers b with
  | none => left; simp [startPrivateServer, hbase]
  | some base =>
    by_cases hpriv : (alGet st.mcpservers (b ++ "-" ++ u)).isSome = true
    · left; simp [startPrivateServer, hbase, hpriv]
    · cases hres : (addMcpserver st (b ++ "-" ++ u) base.command base.args
          (match getUserEnvForServer users u b with
           | some ue => dictUpdate base.env ue
           | none => base.env)
          ("Private " ++ base.description ++ " for " ++ u) so dk dt).1 with
      | added =>
        right
        refine ⟨base, rfl, ?_⟩
        simp [startPrivateServer, hbase, hpriv, hres]
      | alreadyExists =>
        left
        rw [show (startPrivateServer st users u b now so dk dt).2 =
          (addMcpserver st (b ++ "-" ++ u) base.command base.args
            (match getUserEnvForServer users u b with
             | some ue => dictUpdate base.env ue
             | none => base.env)
            ("Private " ++ base.description ++ " for " ++ u) so dk dt).2 from by
          simp [startPrivateServer, hbase, hpriv, hres]]
        exact addMcpserver_not_added st _ _ _ _ _ so dk dt (by rw [hres]; decide)
      | failed =>
        left
        rw [show (startPrivateServer st users u b now so dk dt).2 =
          (addMcpserver st (b ++ "-" ++ u) base.command base.args
            (match getUserEnvForServer users u b with
             | some ue => dictUpdate base.env ue
             | none => base.env)
            ("Private " ++ base.description ++ " for " ++ u) so dk dt).2 from by
          simp [startPrivateServer, hbase, hpriv, hres]]
        exact addMcpserver_not_added st _ _ _ _ _ so dk dt (by rw [hres]; decide)

theorem cacheInv_startPrivate (st : MgrState) (users : List (String × UserConfig))
    (u b : String) (now : Int) (so dk : Bool) (dt : List RawTool)
    (h : cacheInv st) :
    cacheInv (startPrivateServer st users u b now so dk dt).2 := by
  rcases startPrivateServer_cases st users u b now so dk dt with hc | ⟨base, hbase, hc⟩
  · rw [hc]; exact h
  · intro m
    rw [hc]
    exact cacheInv_addMcpserver st (b ++ "-" ++ u) base.command base.args
      (match getUserEnvForServer users u b with
       | some ue => dictUpdate base.env ue
       | none => base.env)
      ("Private " ++ base.description ++ " for " ++ u) so dk dt h m

theorem cacheInv_delete (st : MgrState) (n : String) (h : cacheInv st) :
    cacheInv (deleteMcpserver st n).2 := by
  unfold deleteMcpserver
  split
  · exact h
  · intro m
    show (alGet (deleteToolcache st.cacheFiles n) m).isSome = true ↔
      m ∈ st.discovered.filter (fun x => x ≠ n)
    unfold deleteToolcache
    by_cases hm : m = n
    · subst hm
      simp [alGet_alErase_self]
    · rw [alGet_alErase_ne st.cacheFiles n m hm]
      simp [List.mem_filter, hm, h m]

/-- C8: in every reachable manager state a tool-cache file exists
exactly for the servers successfully discovered at least once and not
deleted since, and saving a cache whose file already exists leaves the
file system unchanged (write-once). -/
theorem c8_toolcache_invariant :
    (∀ st, Reachable st →
      ∀ n, ((alGet st.cacheFiles n).isSome = true ↔ n ∈ st.discovered)) ∧
    (∀ fs (n : String) (d : List RawTool),
      (alGet fs n).isSome = true → saveToolcache fs n d = fs) := by
  constructor
  · intro st h
    induction h with
    | init => intro n; simp [alGet]
    | add st n c a e d so dk dt _ ih => exact cacheInv_addMcpserver st n c a e d so dk dt ih
    | loadCache st n c a e d _ ih => exact cacheInv_loadCache st n c a e d ih
    | restart st n so dk dt _ ih => exact cacheInv_restart st n so dk dt ih
    | startPrivate st users u b now so dk dt _ ih =>
      exact cacheInv_startPrivate st users u b now so dk dt ih
    | stopPrivate st u b _ ih => exact cacheInv_stopPrivate st u b ih
    | cleanup st users now _ ih => exact cacheInv_foldStop _ st ih
    | delete st n _ ih => exact cacheInv_delete st n ih
    | touch st n now _ ih => exact ih
  · intro fs n d h
    simp [saveToolcache, h]

/-- Witness for C8: after one successful discovery of the server time
the cache file for time exists, and a second save on an existing file
is the identity. -/
theorem c8_witness :
    ((alGet (addMcpserver ⟨[], [], [], [], [], 0⟩ "time" "uvx" [] [] "t"
        true true [⟨"get_time", 0⟩]).2.cacheFiles "time").isSome = true ↔
      "time" ∈ (addMcpserver ⟨[], [], [], [], [], 0⟩ "time" "uvx" [] [] "t"
        true true [⟨"get_time", 0⟩]).2.discovered) ∧
    saveToolcache [("time", [])] "time" [⟨"x", 1⟩] = [("time", [])] := by
  constructor
  · exact c8_toolcache_invariant.1 _
      (Reachable.add ⟨[], [], [], [], [], 0⟩ "time" "uvx" [] [] "t" true true
        [⟨"get_time", 0⟩] Reachable.init) "time"
  · exact c8_toolcache_invariant.2 [("time", [])] "time" [⟨"x", 1⟩] (by decide)

/-! ## Private instances never appear in the all-servers listing (C10) -/

theorem hasDash_private (b u : String) : hasDash (b ++ "-" ++ u) = true := by
  unfold hasDash
  rw [str_data_append, str_data_append]
  apply List.any_eq_true.2
  exact ⟨'-', List.mem_append_left _ (List.mem_append_right _ (by decide)),
    by decide⟩

/-- Shape invariant of the private mapping: every value is the private
name built from its base and user keys. -/
def mappingShaped (st : MgrState) : Prop :=
  ∀ e ∈ st.privateServerMapping, e.2.2 = e.2.1 ++ "-" ++ e.1

theorem addMcpserver_mapping (st : MgrState) (n c : String) (a : List String)
    (e : List (String × String)) (d : String) (so dk : Bool)
    (dt : List RawTool) :
    (addMcpserver st n c a e d so dk dt).2.privateServerMapping =
      st.privateServerMapping := by
  unfold addMcpserver
  split
  · rfl
  · split
    · rfl
    · split
      · rfl
      · rfl

theorem mapErase_subset (m : List (String × String × String)) (u b : String)
    (e : String × String × String) (he : e ∈ mapErase m u b) : e ∈ m :=
  List.mem_of_mem_filter he

theorem mappingShaped_startPrivate (st : MgrState)
    (users : List (String × UserConfig)) (u b : String) (now : Int)
    (so dk : Bool) (dt : List RawTool) (h : mappingShaped st) :
    mappingShaped (startPrivateServer st users u b now so dk dt).2 := by
  rcases startPrivateServer_cases st users u b now so dk dt with hc | ⟨base, hbase, hc⟩
  · rw [hc]; exact h
  · intro e he
    rw [hc] at he
    have he' : e ∈ (u, b, b ++ "-" ++ u) ::
        mapErase (addMcpserver st (b ++ "-" ++ u) base.command base.args
          (match getUserEnvForServer users u b with
           | some ue => dictUpdate base.env ue
           | none => base.env)
          ("Private " ++ base.description ++ " for " ++ u) so dk dt).2.privateServerMapping
          u b := he
    rcases List.mem_cons.1 he' with he₂ | he₂
    · subst he₂; rfl
    · rw [addMcpserver_mapping] at he₂
      exact h e (mapErase_subset _ u b e he₂)

theorem mappingShaped_stopPrivate (s : MgrState) (u b : String)
    (h : mappingShaped s) : mappingShaped (stopPrivateServer s u b).2 := by
  unfold stopPrivateServer
  split
  · exact h
  · split
    · exact h
    · split
      · intro e he
        exact h e (List.mem_of_mem_filter he)
      · exact h

theorem mappingShaped_foldStop (L : List (String × String × String)) :
    ∀ s : MgrState, mappingShaped s →
      mappingShaped (L.foldl (fun s e => (stopPrivateServer s e.1 e.2.1).2) s) := by
  induction L with
  | nil => intro s h; exact h
  | cons e rest ih =>
    intro s h
    exact ih _ (mappingShaped_stopPrivate s e.1 e.2.1 h)

theorem reachable_mappingShaped (st : MgrState) (h : Reachable st) :
    mappingShaped st := by
  induction h with
  | init => intro e he; simp at he
  | add st n c a e d so dk dt _ ih =>
    intro x hx
    rw [addMcpserver_mapping] at hx
    exact ih x hx
  | loadCache st n c a e d _ ih =>
    intro x hx
    unfold loadMcpserverFromCache at hx
    revert hx
    split
    · exact ih x
    · exact ih x
  | restart st n so dk dt _ ih =>
    intro x hx
    revert hx
    unfold restartMcpserver
    split
    · exact ih x
    · split
      · exact ih x
      · split
        · exact ih x
        · exact ih x
  | startPrivate st users u b now so dk dt _ ih =>
    exact mappingShaped_startPrivate st users u b now so dk dt ih
  | stopPrivate st u b _ ih => exact mappingShaped_stopPrivate st u b ih
  | cleanup st users now _ ih => exact mappingShaped_foldStop _ st ih
  | delete st n _ ih =>
    intro x hx
    revert hx
    unfold deleteMcpserver
    split
    · exact ih x
    · intro hx
      exact ih x (List.mem_of_mem_filter hx)
  | touch st n now _ ih => exact ih

/-- C10: in every reachable manager state, a name recorded as a value
of the private-instance mapping is excluded from the all-servers
listing. -/
theorem c10_private_not_listed (st : MgrState) (h : Reachable st)
    (p : String) (hp : p ∈ mapValues st.privateServerMapping) :
    p ∉ listMcpservers st := by
  have hshape := reachable_mappingShaped st h
  obtain ⟨e, he, hep⟩ := List.mem_map.1 hp
  have hdash : hasDash p = true := by
    rw [← hep, hshape e he]
    exact hasDash_private _ _
  have hcontains : listHasStr (mapValues st.privateServerMapping) p = true := by
    apply List.any_eq_true.2
    exact ⟨p, hp, by simp⟩
  intro hmem
  obtain ⟨pr, hpr, hfst⟩ := List.mem_map.1 hmem
  have hpred := List.of_mem_filter hpr
  rw [hfst, hdash, hcontains] at hpred
  simp at hpred

/-- Witness for C10: after adding the shared server calc and spawning
the private child calc-donald, the listing omits calc-donald. -/
theorem c10_witness :
    "calc-donald" ∉ listMcpservers
      (startPrivateServer
        (addMcpserver ⟨[], [], [], [], [], 0⟩ "calc" "cmd" [] [] "d"
          true true []).2 [] "donald" "calc" 0 true true []).2 := by
  apply c10_private_not_listed _
    (Reachable.startPrivate _ [] "donald" "calc" 0 true true []
      (Reachable.add ⟨[], [], [], [], [], 0⟩ "calc" "cmd" [] [] "d" true true []
        Reachable.init))
  decide

/-! ## Idle cleanup of private servers (C9) -/

theorem getServerTimeout_eq_spec (users : List (String × UserConfig))
    (u b : String) : getServerTimeout users u b = timeoutSpec users u b := by
  unfold getServerTimeout timeoutSpec
  cases hcfg : alGet users u with
  | none => rfl
  | some cfg =>
    cases h₂ : alGet cfg.serverTimeouts b <;> cases h₃ : cfg.serverTimeout <;>
      simp [h₂, h₃]

theorem mapLookup_some_mem (m : List (String × String × String)) (u b p : String)
    (h : mapLookup m u b = some p) : (u, b, p) ∈ m := by
  induction m with
  | nil => simp [mapLookup] at h
  | cons e tl ih =>
    by_cases hk : e.1 = u ∧ e.2.1 = b
    · simp only [mapLookup, if_pos hk] at h
      have hp : e.2.2 = p := Option.some.inj h
      apply List.mem_cons.2
      left
      obtain ⟨e₁, e₂, e₃⟩ := e
      obtain ⟨hk₁, hk₂⟩ := hk
      simp only [] at hk₁ hk₂ hp
      rw [← hk₁, ← hk₂, ← hp]
    · simp only [mapLookup, if_neg hk] at h
      exact List.mem_cons_of_mem e (ih h)

theorem mapLookup_isSome_of_mem (m : List (String × String × String))
    (u b p : String) (h : (u, b, p) ∈ m) :
    (mapLookup m u b).isSome = true := by
  induction m with
  | nil => simp at h
  | cons e tl ih =>
    by_cases hk : e.1 = u ∧ e.2.1 = b
    · simp only [mapLookup, if_pos hk, Option.isSome_some]
    · rcases List.mem_cons.1 h with he | he
      · rw [← he] at hk
        exact absurd ⟨rfl, rfl⟩ hk
      · simp only [mapLookup, if_neg hk]
        exact ih he

def keysDistinct (m : List (String × String × String)) : Prop :=
  m.Pairwise (fun e₁ e₂ => ¬(e₁.1 = e₂.1 ∧ e₁.2.1 = e₂.2.1))

theorem keysDistinct_symm :
    Symmetric (fun e₁ e₂ : String × String × String =>
      ¬(e₁.1 = e₂.1 ∧ e₁.2.1 = e₂.2.1)) := by
  intro a c h hc
  exact h ⟨hc.1.symm, hc.2.symm⟩

theorem keys_inj (m : List (String × String × String)) (hkeys : keysDistinct m)
    (e : String × String × String) (u b p : String) (he : e ∈ m)
    (hmem : (u, b, p) ∈ m) (hk : e.1 = u ∧ e.2.1 = b) : e = (u, b, p) := by
  by_cases heq : e = (u, b, p)
  · exact heq
  · exact absurd hk (hkeys.forall keysDistinct_symm he hmem heq)

theorem mapLookup_eq_of_mem_distinct (m : List (String × String × String))
    (u b p : String) (hkeys : keysDistinct m) (hmem : (u, b, p) ∈ m) :
    mapLookup m u b = some p := by
  induction m with
  | nil => simp at hmem
  | cons e tl ih =>
    rcases List.pairwise_cons.1 hkeys with ⟨hhd, htl⟩
    by_cases hk : e.1 = u ∧ e.2.1 = b
    · simp only [mapLookup, if_pos hk]
      rcases List.mem_cons.1 hmem with he | he
      · rw [← he]
      · exact absurd ⟨hk.1, hk.2⟩ (hhd (u, b, p) he)
    · simp only [mapLookup, if_neg hk]
      rcases List.mem_cons.1 hmem with he | he
      · rw [← he] at hk
        exact absurd ⟨rfl, rfl⟩ hk
      · exact ih htl he

theorem mapLookup_erase_self (m : List (String × String × String)) (u b : String) :
    mapLookup (mapErase m u b) u b = none := by
  induction m with
  | nil => rfl
  | cons e tl ih =>
    by_cases hk : e.1 = u ∧ e.2.1 = b
    · have : (decide ¬(e.1 = u ∧ e.2.1 = b)) = false := by simp [hk]
      simp only [mapErase, List.filter_cons, this]
      exact ih
    · have : (decide ¬(e.1 = u ∧ e.2.1 = b)) = true := by simp [hk]
      simp only [mapErase, List.filter_cons, this]
      simp only [mapLookup, if_neg hk]
      exact ih

theorem mapLookup_erase_ne (m : List (String × String × String))
    (u b u' b' : String) (h : ¬(u' = u ∧ b' = b)) :
    mapLookup (mapErase m u b) u' b' = mapLookup m u' b' := by
  induction m with
  | nil => rfl
  | cons e tl ih =>
    by_cases hk : e.1 = u ∧ e.2.1 = b
    · have hd : (decide ¬(e.1 = u ∧ e.2.1 = b)) = false := by simp [hk]
      simp only [mapErase, List.filter_cons, hd]
      have hk' : ¬(e.1 = u' ∧ e.2.1 = b') := by
        intro hc
        exact h ⟨hc.1.symm.trans hk.1, hc.2.symm.trans hk.2⟩
      simp only [mapLookup, if_neg hk']
      exact ih
    · have hd : (decide ¬(e.1 = u ∧ e.2.1 = b)) = true := by simp [hk]
      simp only [mapErase, List.filter_cons, hd]
      by_cases hk' : e.1 = u' ∧ e.2.1 = b'
      · simp only [mapLookup, if_pos hk']
      · simp only [mapLookup, if_neg hk']
        exact ih

theorem mapLookup_erase_none (m : List (String × String × String))
    (u b u' b' : String) (h : mapLookup m u' b' = none) :
    mapLookup (mapErase m u b) u' b' = none := by
  induction m with
  | nil => rfl
  | cons e tl ih =>
    by_cases hk' : e.1 = u' ∧ e.2.1 = b'
    · simp only [mapLookup, if_pos hk'] at h
      simp at h
    · simp only [mapLookup, if_neg hk'] at h
      by_cases hk : e.1 = u ∧ e.2.1 = b
      · have hd : (decide ¬(e.1 = u ∧ e.2.1 = b)) = false := by simp [hk]
        simp only [mapErase, List.filter_cons, hd]
        exact ih h
      · have hd : (decide ¬(e.1 = u ∧ e.2.1 = b)) = true := by simp [hk]
        simp only [mapErase, List.filter_cons, hd]
        simp only [mapLookup, if_neg hk']
        exact ih h

theorem stopPrivate_mapping_cases (s : MgrState) (u b : String) :
    (stopPrivateServer s u b).2.privateServerMapping = s.privateServerMapping ∨
    (stopPrivateServer s u b).2.privateServerMapping =
      mapErase s.privateServerMapping u b := by
  unfold stopPrivateServer
  split
  · left; rfl
  · split
    · left; rfl
    · split
      · right; rfl
      · left; rfl

theorem stopPrivate_success (s : MgrState) (u b p : String)
    (hlook : mapLookup s.privateServerMapping u b = some p)
    (hlive : (alGet s.mcpservers p).isSome = true) :
    (stopPrivateServer s u b).2 = { s with
      privateServerMapping := mapErase s.privateServerMapping u b,
      serverStartTimes := alErase s.serverStartTimes p } := by
  have hany : s.privateServerMapping.any (fun e => e.1 = u) = true := by
    apply List.any_eq_true.2
    exact ⟨(u, b, p), mapLookup_some_mem _ u b p hlook, by simp⟩
  simp [stopPrivateServer, hany, hlook, hlive]

theorem stopPrivate_lookup_ne (s : MgrState) (u b u' b' : String)
    (h : ¬(u' = u ∧ b' = b)) :
    mapLookup (stopPrivateServer s u b).2.privateServerMapping u' b' =
      mapLookup s.privateServerMapping u' b' := by
  rcases stopPrivate_mapping_cases s u b with hc | hc <;> rw [hc]
  exact mapLookup_erase_ne s.privateServerMapping u b u' b' h

theorem stopPrivate_lookup_none (s : MgrState) (u b u' b' : String)
    (h : mapLookup s.privateServerMapping u' b' = none) :
    mapLookup (stopPrivateServer s u b).2.privateServerMapping u' b' = none := by
  rcases stopPrivate_mapping_cases s u b with hc | hc <;> rw [hc]
  · exact h
  · exact mapLookup_erase_none s.privateServerMapping u b u' b' h

theorem fold_stop_mcpservers (L : List (String × String × String)) :
    ∀ s : MgrState,
      (L.foldl (fun s e => (stopPrivateServer s e.1 e.2.1).2) s).mcpservers =
        s.mcpservers := by
  induction L with
  | nil => intro s; rfl
  | cons e rest ih =>
    intro s
    rw [List.foldl_cons, ih]
    exact (stopPrivateServer_frame s e.1 e.2.1).1

theorem fold_stop_lookup_none (L : List (String × String × String)) :
    ∀ s : MgrState, ∀ u b : String,
      mapLookup s.privateServerMapping u b = none →
      mapLookup (L.foldl (fun s e => (stopPrivateServer s e.1 e.2.1).2)
        s).privateServerMapping u b = none := by
  induction L with
  | nil => intro s u b h; exact h
  | cons e rest ih =>
    intro s u b h
    rw [List.foldl_cons]
    exact ih _ u b (stopPrivate_lookup_none s e.1 e.2.1 u b h)

theorem fold_stop_lookup_ne (L : List (String × String × String)) :
    ∀ s : MgrState, ∀ u b : String,
      (∀ e ∈ L, ¬(e.1 = u ∧ e.2.1 = b)) →
      mapLookup (L.foldl (fun s e => (stopPrivateServer s e.1 e.2.1).2)
        s).privateServerMapping u b = mapLookup s.privateServerMapping u b := by
  induction L with
  | nil => intro s u b _; rfl
  | cons e rest ih =>
    intro s u b hne
    rw [List.foldl_cons]
    rw [ih _ u b (fun x hx => hne x (List.mem_cons_of_mem e hx))]
    exact stopPrivate_lookup_ne s e.1 e.2.1 u b
      (fun hc => hne e (List.mem_cons_self e rest) ⟨hc.1.symm, hc.2.symm⟩)

theorem fold_stop_hit (L : List (String × String × String)) :
    ∀ s : MgrState, ∀ u b p : String,
      (u, b, p) ∈ L →
      (∀ e ∈ L, (e.1 = u ∧ e.2.1 = b) → e = (u, b, p)) →
      mapLookup s.privateServerMapping u b = some p →
      (alGet s.mcpservers p).isSome = true →
      mapLookup (L.foldl (fun s e => (stopPrivateServer s e.1 e.2.1).2)
        s).privateServerMapping u b = none := by
  induction L with
  | nil => intro s u b p h; simp at h
  | cons e rest ih =>
    intro s u b p hmem huniq hlook hlive
    rw [List.foldl_cons]
    by_cases he : e = (u, b, p)
    · subst he
      have hstep := stopPrivate_success s u b p hlook hlive
      apply fold_stop_lookup_none
      rw [hstep]
      exact mapLookup_erase_self s.privateServerMapping u b
    · have hkey : ¬(e.1 = u ∧ e.2.1 = b) := by
        intro hk
        exact he (huniq e (List.mem_cons_self e rest) hk)
      have hmem' : (u, b, p) ∈ rest := by
        rcases List.mem_cons.1 hmem with hh | hh
        · exact absurd hh.symm he
        · exact hh
      apply ih _ u b p hmem'
        (fun x hx => huniq x (List.mem_cons_of_mem e hx))
      · rw [stopPrivate_lookup_ne s e.1 e.2.1 u b
          (fun hc => hkey ⟨hc.1.symm, hc.2.symm⟩)]
        exact hlook
      · rw [(stopPrivateServer_frame s e.1 e.2.1).1]
        exact hlive

theorem fold_stop_mapping_subset (L : List (String × String × String)) :
    ∀ s : MgrState, ∀ e : String × String × String,
      e ∈ (L.foldl (fun s e => (stopPrivateServer s e.1 e.2.1).2)
        s).privateServerMapping → e ∈ s.privateServerMapping := by
  induction L with
  | nil => intro s e h; exact h
  | cons x rest ih =>
    intro s e h
    rw [List.foldl_cons] at h
    have h₁ := ih _ e h
    rcases stopPrivate_mapping_cases s x.1 x.2.1 with hc | hc
    · rwa [hc] at h₁
    · rw [hc] at h₁
      exact List.mem_of_mem_filter h₁

theorem mapValues_inj (m : List (String × String × String))
    (hvals : (mapValues m).Nodup) (e₁ e₂ : String × String × String)
    (h₁ : e₁ ∈ m) (h₂ : e₂ ∈ m) (hv : e₁.2.2 = e₂.2.2) : e₁ = e₂ := by
  by_cases he : e₁ = e₂
  · exact he
  · have hpair : m.Pairwise (fun a c => a.2.2 ≠ c.2.2) := by
      have := (List.pairwise_map.1 hvals)
      exact this
    have hsym : Symmetric (fun a c : String × String × String => a.2.2 ≠ c.2.2) :=
      fun a c h hc => h hc.symm
    exact absurd hv (hpair.forall hsym h₁ h₂ he)

/-- C9: a live private child with a recorded use time is removed by
CleanupIdle exactly when its idle time strictly exceeds the user
timeout (per-server entry, else global value, else 3600 s); when it is
removed, ListForUser no longer contains it.  The mapping is assumed
well-formed: user-base keys are distinct and private names are not
shared between entries, as the manager maintains them. -/
theorem c9_cleanup_idle (st : MgrState) (users : List (String × UserConfig))
    (now : Int) (u b p : String) (t : Int)
    (hkeys : keysDistinct st.privateServerMapping)
    (hvals : (mapValues st.privateServerMapping).Nodup)
    (hmem : (u, b, p) ∈ st.privateServerMapping)
    (ht : alGet st.serverStartTimes p = some t)
    (hlive : (alGet st.mcpservers p).isSome = true) :
    (now - t > timeoutSpec users u b →
      mapLookup (cleanupIdle st users now).privateServerMapping u b = none ∧
      p ∉ listUserServers (cleanupIdle st users now) u) ∧
    (¬(now - t > timeoutSpec users u b) →
      mapLookup (cleanupIdle st users now).privateServerMapping u b = some p) := by
  have hcleanup : cleanupIdle st users now =
      (st.privateServerMapping.filter (idleCondition st users now)).foldl
        (fun s e => (stopPrivateServer s e.1 e.2.1).2) st := rfl
  have hlook : mapLookup st.privateServerMapping u b = some p :=
    mapLookup_eq_of_mem_distinct st.privateServerMapping u b p hkeys hmem
  have hcond : idleCondition st users now (u, b, p) =
      decide (now - t > timeoutSpec users u b) := by
    unfold idleCondition
    rw [show alGet st.serverStartTimes (u, b, p).2.2 = some t from ht]
    simp [getServerTimeout_eq_spec]
  have huniq : ∀ e ∈ st.privateServerMapping.filter (idleCondition st users now),
      (e.1 = u ∧ e.2.1 = b) → e = (u, b, p) := by
    intro e heL hk
    exact keys_inj st.privateServerMapping hkeys e u b p
      (List.mem_of_mem_filter heL) hmem hk
  constructor
  · intro hgt
    have hcondT : idleCondition st users now (u, b, p) = true := by
      rw [hcond]
      exact decide_eq_true hgt
    have hmemL : (u, b, p) ∈
        st.privateServerMapping.filter (idleCondition st users now) :=
      List.mem_filter.2 ⟨hmem, hcondT⟩
    have hnoneF : mapLookup
        ((st.privateServerMapping.filter (idleCondition st users now)).foldl
          (fun s e => (stopPrivateServer s e.1 e.2.1).2) st).privateServerMapping
        u b = none :=
      fold_stop_hit _ st u b p hmemL huniq hlook hlive
    have hnone : mapLookup (cleanupIdle st users now).privateServerMapping u b =
        none := by
      rw [hcleanup]
      exact hnoneF
    refine ⟨hnone, ?_⟩
    intro hin
    unfold listUserServers at hin
    obtain ⟨e, heF, hfe⟩ := List.mem_filterMap.1 hin
    by_cases hs : (alGet (cleanupIdle st users now).mcpservers e.2.2).isSome = true
    · rw [if_pos hs] at hfe
      have hep : e.2.2 = p := Option.some.inj hfe
      have heM' : e ∈ (cleanupIdle st users now).privateServerMapping :=
        List.mem_of_mem_filter heF
      rw [hcleanup] at heM'
      have heM : e ∈ st.privateServerMapping :=
        fold_stop_mapping_subset _ st e heM'
      have heq : e = (u, b, p) :=
        mapValues_inj st.privateServerMapping hvals e (u, b, p) heM hmem
          (by rw [hep])
      rw [heq] at heM'
      have hsome := mapLookup_isSome_of_mem _ u b p heM'
      rw [hnoneF] at hsome
      simp at hsome
    · rw [if_neg hs] at hfe
      simp at hfe
  · intro hle
    have hLkeys : ∀ e ∈ st.privateServerMapping.filter (idleCondition st users now),
        ¬(e.1 = u ∧ e.2.1 = b) := by
      intro e heL hk
      have heq := huniq e heL hk
      have hcT := List.of_mem_filter heL
      rw [heq, hcond] at hcT
      exact hle (of_decide_eq_true hcT)
    rw [hcleanup, fold_stop_lookup_ne _ st u b hLkeys]
    exact hlook

/-- Witness for C9: with a global serverTimeout of 10 and fifteen
seconds of idleness, cleanup removes calculator-donald from the mapping
and from the user listing. -/
theorem c9_witness :
    mapLookup (cleanupIdle
        ⟨[("calculator", ⟨"cmd", [], [], "calc", some "running", []⟩),
          ("calculator-donald", ⟨"cmd", [], [], "p", some "running", []⟩)],
          [("donald", "calculator", "calculator-donald")],
          [("calculator-donald", 100)], [], [], 0⟩
        [("donald", ⟨[], [], [], some 10⟩)] 115).privateServerMapping
      "donald" "calculator" = none ∧
    "calculator-donald" ∉ listUserServers (cleanupIdle
        ⟨[("calculator", ⟨"cmd", [], [], "calc", some "running", []⟩),
          ("calculator-donald", ⟨"cmd", [], [], "p", some "running", []⟩)],
          [("donald", "calculator", "calculator-donald")],
          [("calculator-donald", 100)], [], [], 0⟩
        [("donald", ⟨[], [], [], some 10⟩)] 115) "donald" := by
  exact (c9_cleanup_idle
    ⟨[("calculator", ⟨"cmd", [], [], "calc", some "running", []⟩),
      ("calculator-donald", ⟨"cmd", [], [], "p", some "running", []⟩)],
      [("donald", "calculator", "calculator-donald")],
      [("calculator-donald", 100)], [], [], 0⟩
    [("donald", ⟨[], [], [], some 10⟩)] 115 "donald" "calculator"
    "calculator-donald" 100
    (by simp [keysDistinct])
    (by simp [mapValues])
    (by simp)
    (by decide)
    (by decide)).1 (by decide)

end SimpletoolServer
